import Mathlib

/-!
Verification of the knockknock self-updating supervisor.

This file gives a shallow embedding of the supervisor's update state
machine (supervisor/supervisor.go), the registry client's version listing
(oras client), and the timestamp / semver handling, together with theorems
settling the specification claims.

Modelling conventions:
* Filesystem paths are lists of components (`Path`); `filepath.Join`
  on clean, slash-free components is list append.  All names the
  supervisor generates (`current`, `previous-<ts>`, `current.tmp.<n>`,
  version directories from registry tags) are slash-free.
* The filesystem is a finite association map from paths to nodes
  (symlink / regular file / directory).  `os.Symlink`, `os.Rename`,
  `os.Remove`, `os.ReadDir`, `os.Lstat`, `os.Readlink`, `os.MkdirAll`
  are modelled with their POSIX behaviour on such a map.  Symlink
  resolution in the middle of a path is modelled where the source
  relies on it (the `current` link).
* Machine integers are `Nat`; file contents are byte lists (`List Nat`).
* Wall-clock reads (`time.Now()` formatted timestamps and integer
  nonces) are inputs, collected in a `Clock` record.
* The registry (oras) and the self-signal are an `Env` record: the
  download step yields a list of files placed in the destination
  directory plus an optional error, and `killOk` tells whether
  `syscall.Kill(self, SIGTERM)` succeeds.
-/

namespace Knock

/-! ## Byte-wise string comparison (Go `sort.Strings` order) -/

/-- Lexicographic comparison of char lists; on ASCII this is exactly Go's
byte-wise string order used by `sort.Strings`. -/
def charsLe : List Char → List Char → Bool
  | [], _ => true
  | _ :: _, [] => false
  | a :: as, b :: bs => if a < b then true else if b < a then false else charsLe as bs

/-- Go string `<=` (byte-wise), decidably and kernel-computably. -/
def strLe (a b : String) : Bool := charsLe a.data b.data

/-- The ordering relation used to model `sort.Strings`. -/
def strRel (a b : String) : Prop := strLe a b = true

instance : DecidableRel strRel := fun _ _ => instDecidableEqBool _ _

/-- The model of Go `sort.Strings` (ascending byte-wise order). -/
def sortNames (l : List String) : List String := List.insertionSort strRel l

/-! ## Semantic versions (Masterminds/semver v3, lenient `NewVersion`) -/

/-- One dot-separated prerelease identifier: purely numeric identifiers
compare numerically and below alphanumeric ones. -/
inductive PreId where
  | num (n : Nat)
  | str (s : String)
  deriving DecidableEq, Repr

/-- A parsed semantic version.  Build metadata is dropped: it never
participates in precedence. -/
structure SemVer where
  major : Nat
  minor : Nat
  patch : Nat
  pre : List PreId
  deriving DecidableEq, Repr

/-- `[0-9A-Za-z-]`, the charset of prerelease/metadata identifiers. -/
def isIdentChar (c : Char) : Bool := c.isDigit || c.isAlpha || c = '-'

def digitsToNat (cs : List Char) : Nat :=
  cs.foldl (fun acc c => 10 * acc + (c.toNat - 48)) 0

/-- Parse one numeric core group (nonempty, all digits). -/
def parseNumGroup (cs : List Char) : Option Nat :=
  if cs ≠ [] ∧ cs.all Char.isDigit then some (digitsToNat cs) else none

/-- Split a char list on a separator character. -/
def splitChars (sep : Char) (cs : List Char) : List (List Char) :=
  match cs with
  | [] => [[]]
  | c :: rest =>
    let r := splitChars sep rest
    if c = sep then [] :: r
    else match r with
      | [] => [[c]]
      | g :: gs => (c :: g) :: gs

def parsePreGroup (cs : List Char) : Option PreId :=
  if cs ≠ [] ∧ cs.all isIdentChar then
    some (if cs.all Char.isDigit then PreId.num (digitsToNat cs) else PreId.str (String.mk cs))
  else none

def parseCore (cs : List Char) : Option (Nat × Nat × Nat) :=
  match (splitChars '.' cs).mapM parseNumGroup with
  | some [a] => some (a, 0, 0)
  | some [a, b] => some (a, b, 0)
  | some [a, b, c] => some (a, b, c)
  | _ => none

/-- Model of `semver.NewVersion` (the lenient constructor): optional
leading `v`, one to three numeric core groups, optional `-prerelease`
(identifiers over `[0-9A-Za-z-]`), optional `+metadata` (validated,
then dropped). -/
def parseSemVer (s : String) : Option SemVer :=
  let cs := if s.data.headD ' ' = 'v' then s.data.tail else s.data
  match splitChars '+' cs with
  | [body] => parseBody body
  | [body, meta] =>
    if ((splitChars '.' meta).mapM parsePreGroup).isSome then parseBody body else none
  | _ => none
where
  parseBody (body : List Char) : Option SemVer :=
    let core := body.takeWhile (fun c => c ≠ '-')
    let rest := body.dropWhile (fun c => c ≠ '-')
    match parseCore core with
    | none => none
    | some (a, b, c) =>
      match rest with
      | [] => some ⟨a, b, c, []⟩
      | _ :: pre =>
        match (splitChars '.' pre).mapM parsePreGroup with
        | some ids => some ⟨a, b, c, ids⟩
        | none => none

/-- Go string comparison as a three-way compare (used for alphanumeric
prerelease identifiers). -/
def charsCmp : List Char → List Char → Ordering
  | [], [] => .eq
  | [], _ :: _ => .lt
  | _ :: _, [] => .gt
  | a :: as, b :: bs =>
    if a < b then .lt else if b < a then .gt else charsCmp as bs

def cmpPreId : PreId → PreId → Ordering
  | .num a, .num b => compare a b
  | .num _, .str _ => .lt
  | .str _, .num _ => .gt
  | .str a, .str b => charsCmp a.data b.data

def cmpPreList : List PreId → List PreId → Ordering
  | [], [] => .eq
  | [], _ :: _ => .lt
  | _ :: _, [] => .gt
  | a :: as, b :: bs =>
    match cmpPreId a b with
    | .eq => cmpPreList as bs
    | o => o

/-- Semver precedence (`Version.Compare` in Masterminds/semver):
major, minor, patch, then prerelease where a release (empty prerelease)
outranks any prerelease of the same core. -/
def compareSemVer (a b : SemVer) : Ordering :=
  match compare a.major b.major with
  | .eq =>
    match compare a.minor b.minor with
    | .eq =>
      match compare a.patch b.patch with
      | .eq =>
        match a.pre, b.pre with
        | [], [] => .eq
        | [], _ :: _ => .gt
        | _ :: _, [] => .lt
        | x, y => cmpPreList x y
      | o => o
    | o => o
  | o => o

/-- `Version.GreaterThan` from the source. -/
def gtSemVer (a b : SemVer) : Bool := compareSemVer a b = Ordering.gt

/-- The `0.0.0-legacy` sentinel (`semver.MustParse("0.0.0-legacy")`). -/
def legacySentinel : SemVer := ⟨0, 0, 0, [PreId.str "legacy"]⟩

/-! ## Timestamps (`time.Format("20060102-150405")` and `time.Parse`) -/

/-- A wall-clock instant at second granularity, as the Go layout
`20060102-150405` exposes it. -/
structure DT where
  y : Nat
  mo : Nat
  d : Nat
  h : Nat
  mi : Nat
  s : Nat
  deriving DecidableEq, Repr

def isLeap (y : Nat) : Bool := y % 4 = 0 && (y % 100 ≠ 0 || y % 400 = 0)

def daysInMonth (y mo : Nat) : Nat :=
  if mo = 2 then (if isLeap y then 29 else 28)
  else if mo = 4 ∨ mo = 6 ∨ mo = 9 ∨ mo = 11 then 30
  else 31

/-- The instants representable in (and validated by parsing back from)
the 4+2+2-2+2+2 digit layout: exactly what `time.Parse` accepts. -/
def validDT (t : DT) : Bool :=
  decide (1 ≤ t.mo) && decide (t.mo ≤ 12) && decide (1 ≤ t.d) &&
  decide (t.d ≤ daysInMonth t.y t.mo) && decide (t.h ≤ 23) &&
  decide (t.mi ≤ 59) && decide (t.s ≤ 59) && decide (t.y ≤ 9999)

/-- Go's zero `time.Time` (January 1, year 1, 00:00:00). -/
def goZeroDT : DT := ⟨1, 1, 1, 0, 0, 0⟩

def digitChar (n : Nat) : Char := Char.ofNat (48 + n % 10)

def pad2 (n : Nat) : List Char := [digitChar (n / 10), digitChar n]

def pad4 (n : Nat) : List Char :=
  [digitChar (n / 1000), digitChar (n / 100), digitChar (n / 10), digitChar n]

/-- `t.Format("20060102-150405")`: zero-padded year, month, day, dash,
hour, minute, second. -/
def formatTimestamp (t : DT) : String :=
  String.mk (pad4 t.y ++ pad2 t.mo ++ pad2 t.d ++ ('-' :: pad2 t.h) ++ pad2 t.mi ++ pad2 t.s)

def digitVal (c : Char) : Option Nat :=
  if c.isDigit then some (c.toNat - 48) else none

def parse2 (a b : Char) : Option Nat := do
  let x ← digitVal a
  let y ← digitVal b
  pure (10 * x + y)

def parse4 (a b c d : Char) : Option Nat := do
  let x ← parse2 a b
  let y ← parse2 c d
  pure (100 * x + y)

/-- `time.Parse("20060102-150405", s)`: fifteen chars, a dash in the
middle, digits elsewhere, and range validation of every component. -/
def parseTimestamp (str : String) : Option DT :=
  match str.data with
  | [y1, y2, y3, y4, m1, m2, d1, d2, dash, h1, h2, i1, i2, q1, q2] =>
    if dash = '-' then
      match parse4 y1 y2 y3 y4, parse2 m1 m2, parse2 d1 d2,
            parse2 h1 h2, parse2 i1 i2, parse2 q1 q2 with
      | some y, some mo, some d, some h, some mi, some sec =>
        let t : DT := ⟨y, mo, d, h, mi, sec⟩
        if validDT t then some t else none
      | _, _, _, _, _, _ => none
    else none
  | _ => none

/-- The chars of the name prefix `"previous-"`. -/
def prevPrefixChars : List Char := ['p', 'r', 'e', 'v', 'i', 'o', 'u', 's', '-']

/-- `len(name) > 9 && name[:9] == "previous-"`, the backup-name test used
by `getBackupSymlinks` and `parsePreviousTimestamp`. -/
def isPrevName (n : String) : Bool :=
  decide (9 < n.data.length) && (n.data.take 9 == prevPrefixChars)

/-- `parsePreviousTimestamp` from the source: strip `previous-`, parse the
layout, and fall back to the zero time on any failure. -/
def parsePreviousTimestamp (name : String) : DT :=
  if isPrevName name then
    match parseTimestamp (String.mk (name.data.drop 9)) with
    | some t => t
    | none => goZeroDT
  else goZeroDT

/-! ## Filesystem model -/

/-- A filesystem path, as a list of slash-free components. -/
abbrev Path := List String

/-- A filesystem node: symlink (with its target as stored), regular file
(permission bits and content bytes), or directory. -/
inductive Node where
  | symlink (target : Path)
  | file (mode : Nat) (content : List Nat)
  | dir
  deriving DecidableEq, Repr

/-- The filesystem: a finite association map from paths to nodes. -/
abbrev FS := List (Path × Node)

def lookupFS : FS → Path → Option Node
  | [], _ => none
  | e :: rest, p => if e.1 = p then some e.2 else lookupFS rest p

def eraseFS : FS → Path → FS
  | [], _ => []
  | e :: rest, p => if e.1 = p then eraseFS rest p else e :: eraseFS rest p

def insertFS (fs : FS) (p : Path) (n : Node) : FS := (p, n) :: eraseFS fs p

/-- Well-formed filesystem: no duplicate paths. -/
def WFfs (fs : FS) : Prop := (fs.map Prod.fst).Nodup

instance (fs : FS) : Decidable (WFfs fs) := List.nodupDecidable _

/-- `os.Symlink(target, p)`: fails with EEXIST when `p` already exists
(any node kind); never overwrites. -/
def symlinkFS (fs : FS) (target p : Path) : Except String FS :=
  match lookupFS fs p with
  | some _ => .error "file exists"
  | none => .ok (insertFS fs p (.symlink target))

/-- `os.Readlink`: only succeeds on a symlink. -/
def readlinkFS (fs : FS) (p : Path) : Except String Path :=
  match lookupFS fs p with
  | some (.symlink t) => .ok t
  | _ => .error "invalid argument"

/-- `os.Rename(src, dst)`: atomic; replaces `dst` if present. -/
def renameFS (fs : FS) (src dst : Path) : Except String FS :=
  match lookupFS fs src with
  | none => .error "no such file or directory"
  | some n => .ok (insertFS (eraseFS fs src) dst n)

/-- `os.Remove`. -/
def removeFS (fs : FS) (p : Path) : Except String FS :=
  match lookupFS fs p with
  | none => .error "no such file or directory"
  | some _ => .ok (eraseFS fs p)

/-- One directory level of `os.MkdirAll`: ok if already a directory,
EEXIST-style failure if a non-directory is in the way. -/
def mkdirOneFS (fs : FS) (p : Path) : Except String FS :=
  match lookupFS fs p with
  | some .dir => .ok fs
  | some _ => .error "not a directory"
  | none => .ok (insertFS fs p .dir)

/-- `os.MkdirAll` along an explicit ancestor chain. -/
def mkdirAllFS (fs : FS) : List Path → Except String FS
  | [] => .ok fs
  | p :: rest =>
    match mkdirOneFS fs p with
    | .error e => .error e
    | .ok f2 => mkdirAllFS f2 rest

/-- `os.Stat` with symlink resolution (fuel-bounded, as the kernel
bounds symlink chains). -/
def statFS (fs : FS) : Nat → Path → Option Node
  | 0, _ => none
  | fuel + 1, p =>
    match lookupFS fs p with
    | some (.symlink t) => statFS fs fuel t
    | o => o

/-- `filepath.Base` on a component path. -/
def baseName (p : Path) : String := p.getLastD ""

/-! ## The supervisor -/

/-- The configuration fields the supervisor derives its paths from
(`config.Config` plus the compile-time version). -/
structure Config where
  binaryName : String
  binaryDir : Path
  versionsDir : Path
  deriving DecidableEq, Repr

/-- `s.dataDir = versionsDir/binaryName`. -/
def dataDir (c : Config) : Path := c.versionsDir ++ [c.binaryName]

/-- `s.binPath = binaryDir/binaryName`. -/
def binPath (c : Config) : Path := c.binaryDir ++ [c.binaryName]

def curKey (c : Config) : Path := dataDir c ++ ["current"]

def versionsKey (c : Config) : Path := dataDir c ++ ["versions"]

def versionKey (c : Config) (v : String) : Path := dataDir c ++ ["versions", v]

def legacyKey (c : Config) : Path := dataDir c ++ ["versions", "legacy"]

def prevKey (c : Config) (ts : String) : Path := dataDir c ++ ["previous-" ++ ts]

def tmpCurKey (c : Config) (n : Nat) : Path := dataDir c ++ ["current.tmp." ++ Nat.repr n]

def tmpBinKey (c : Config) (n : Nat) : Path :=
  c.binaryDir ++ [c.binaryName ++ ".tmp." ++ Nat.repr n]

/-- The wall-clock reads an Update/Rollback performs: the second-granular
backup timestamps and the integer nonces for temporary link names. -/
structure Clock where
  ts : String
  tsLegacy : String
  unixN : Nat
  nanoCur : Nat
  nanoBin : Nat

/-- The environment: the oras registry download (files placed into the
destination directory, plus an optional error) and whether the final
SIGTERM-to-self succeeds. -/
structure Env where
  download : String → List (String × Node) × Option String
  killOk : Bool

/-- `Client.DownloadUpdate`: ensure the destination directory, copy the
artifact files into it, then chmod the file named `binaryName` to 0755. -/
def downloadUpdate (c : Config) (env : Env) (v : String) (dest : Path) (fs : FS) :
    FS × Option String :=
  match mkdirOneFS fs dest with
  | .error _ => (fs, some "failed to create destination dir")
  | .ok fs1 =>
    let delta := (env.download v).1
    let derr := (env.download v).2
    let fs2 := delta.foldl (fun acc e => insertFS acc (dest ++ [e.1]) e.2) fs1
    match derr with
    | some _ => (fs2, some "download failed")
    | none =>
      match lookupFS fs2 (dest ++ [c.binaryName]) with
      | some (.file _ content) =>
        (insertFS fs2 (dest ++ [c.binaryName]) (.file 0o755 content), none)
      | _ => (fs2, none)

def elfMagic : List Nat := [0x7f, 0x45, 0x4c, 0x46]

/-- `verifyBinary` from the source: `os.Stat` (exists, resolving
symlinks), non-empty, any execute bit, then open and compare the first
four bytes against the ELF magic.  A directory passes `os.Stat`
(size 4096, mode 0755 on Linux) and fails at the header read (EISDIR);
a file shorter than four bytes fails the header read (unexpected EOF). -/
def verifyBinary (fs : FS) (p : Path) : Option String :=
  match statFS fs 8 p with
  | none => some "binary not found"
  | some (.symlink _) => some "binary not found"
  | some .dir => some "failed to read binary header"
  | some (.file mode content) =>
    if content.length = 0 then some "binary is empty"
    else if mode &&& 0o111 = 0 then some "binary is not executable"
    else if content.length < 4 then some "failed to read binary header"
    else if content.take 4 = elfMagic then none
    else some "binary is not a valid ELF file"

/-- `os.Stat(dataDir/current/binaryName)`: the lookup the bin-symlink
update starts with, resolving the `current` link in the middle of the
path. -/
def statCurrentBinary (c : Config) (fs : FS) : Option Node :=
  match lookupFS fs (curKey c) with
  | some (.symlink t) => statFS fs 8 (t ++ [c.binaryName])
  | _ => statFS fs 8 (curKey c ++ [c.binaryName])

/-- `migrateLegacyBinary`: make `versions/legacy/`, move the regular-file
binary there, then best-effort create a `previous-<ts>` link to it
(failure logged, not fatal). -/
def migrateLegacyBinary (c : Config) (clk : Clock) (fs : FS) : FS × Option String :=
  match mkdirAllFS fs [dataDir c, versionsKey c, legacyKey c] with
  | .error _ => (fs, some "failed to create legacy version directory")
  | .ok fs1 =>
    match renameFS fs1 (binPath c) (legacyKey c ++ [c.binaryName]) with
    | .error _ => (fs1, some "failed to move legacy binary")
    | .ok fs2 =>
      match symlinkFS fs2 (legacyKey c) (prevKey c clk.tsLegacy) with
      | .error _ => (fs2, none)
      | .ok fs3 => (fs3, none)

/-- The final swap of `updateBinSymlink`: create the temporary bin
symlink pointing through `current` and rename it onto `binPath`. -/
def binSwapTail (c : Config) (clk : Clock) (fs1 : FS) : FS × Option String :=
  match symlinkFS fs1 (curKey c ++ [c.binaryName]) (tmpBinKey c clk.nanoBin) with
  | .error _ => (fs1, some "failed to create temp bin symlink")
  | .ok fs2 =>
    match renameFS fs2 (tmpBinKey c clk.nanoBin) (binPath c) with
    | .error _ => (eraseFS fs2 (tmpBinKey c clk.nanoBin), some "failed to swap bin symlink")
    | .ok fs3 => (fs3, none)

/-- `updateBinSymlink`: require the current binary to exist, migrate a
legacy (non-symlink) `binPath`, then swap `binPath` to a symlink to
`dataDir/current/binaryName` via a temporary name and rename. -/
def updateBinSymlink (c : Config) (clk : Clock) (fs : FS) : FS × Option String :=
  match statCurrentBinary c fs with
  | none => (fs, some "current binary does not exist")
  | some _ =>
    let migrated : FS × Option String :=
      match lookupFS fs (binPath c) with
      | some (.symlink _) => (fs, none)
      | some _ => migrateLegacyBinary c clk fs
      | none => (fs, none)
    match migrated with
    | (fs1, some e) => (fs1, some e)
    | (fs1, none) => binSwapTail c clk fs1

/-- The backup name contributed by one directory entry: direct children
of `dd` that are symlinks named `previous-<something nonempty>`. -/
def prevContrib (dd : Path) (e : Path × Node) : Option String :=
  match e.2 with
  | .symlink _ =>
    match e.1.getLast? with
    | some n => if e.1.dropLast = dd ∧ isPrevName n = true then some n else none
    | none => none
  | _ => none

/-- The unsorted backup names under `dd`, in filesystem order. -/
def prevNamesRaw (dd : Path) (fs : FS) : List String := fs.filterMap (prevContrib dd)

/-- Whether a path is shaped like a backup link of `dd`. -/
def isPrevKeyB (dd k : Path) : Bool :=
  match k.getLast? with
  | some n => (k.dropLast == dd) && isPrevName n
  | none => false

/-- The sorted backup names of a configuration, i.e. the basenames of
`getBackupSymlinks` output. -/
def prevNames (c : Config) (fs : FS) : List String :=
  sortNames (prevNamesRaw (dataDir c) fs)

/-- Sanity conditions on the configuration: the user-visible bin
directory does not alias the supervisor's data tree.  (`binary_dir` and
`versions_dir` are distinct locations; §3 of the spec.) -/
def cfgOK (c : Config) (v : String) : Prop :=
  c.binaryDir ≠ dataDir c ∧ c.binaryDir ≠ c.versionsDir ∧
  c.binaryDir ≠ versionsKey c ∧ c.binaryDir ≠ versionKey c v

/-- `getBackupSymlinks`: read `dataDir`, keep symlinks named
`previous-*`, and sort the joined paths (all sharing the `dataDir/`
prefix, so byte-wise path order is name order). -/
def getBackupSymlinks (c : Config) (fs : FS) : Except String (List Path) :=
  match lookupFS fs (dataDir c) with
  | some .dir =>
    .ok ((sortNames (prevNamesRaw (dataDir c) fs)).map (fun n => dataDir c ++ [n]))
  | _ => .error "failed to read data directory"

/-- `cleanupOldBackups`: drop all but the newest `keep` backups; removal
failures are logged and skipped, so removal is modelled as erasure. -/
def cleanupOldBackups (c : Config) (keep : Nat) (fs : FS) : FS × Option String :=
  match getBackupSymlinks c fs with
  | .error e => (fs, some e)
  | .ok backups =>
    if backups.length > keep then
      ((backups.take (backups.length - keep)).foldl (fun acc p => eraseFS acc p) fs, none)
    else (fs, none)

/-- The backup block of `Update` (source lines 130-143): if `current`
exists, read its target and create `previous-<timestamp>` pointing at
the same target.  No nonce retry: a name collision surfaces as the
symlink error. -/
def updateBackupStep (c : Config) (clk : Clock) (fs3 : FS) : Except String FS :=
  match lookupFS fs3 (curKey c) with
  | none => Except.ok fs3
  | some _ =>
    match readlinkFS fs3 (curKey c) with
    | .error _ => Except.error "failed to read current symlink"
    | .ok target =>
      match symlinkFS fs3 target (prevKey c clk.ts) with
      | .error _ => Except.error "failed to create backup symlink"
      | .ok fs4 => Except.ok fs4

/-- The tail of `Update` after the backup block: temporary symlink,
atomic rename onto `current`, bin-symlink update, backup rotation
(failure logged), SIGTERM self. -/
def updateSwapTail (c : Config) (env : Env) (clk : Clock) (v : String) (fs4 : FS) :
    FS × Option String :=
  match symlinkFS fs4 (versionKey c v) (tmpCurKey c clk.unixN) with
  | .error _ => (fs4, some "failed to create temporary symlink")
  | .ok fs5 =>
  match renameFS fs5 (tmpCurKey c clk.unixN) (curKey c) with
  | .error _ => (eraseFS fs5 (tmpCurKey c clk.unixN), some "failed to swap symlink")
  | .ok fs6 =>
  match updateBinSymlink c clk fs6 with
  | (fs7, some _) => (fs7, some "failed to update bin symlink")
  | (fs7, none) =>
  let fs8 := (cleanupOldBackups c 3 fs7).1
  if env.killOk then (fs8, none) else (fs8, some "failed to send termination signal")

/-- `Supervisor.Update`, the update state machine of the source, step by
step: stage directories, download, verify, back up the existing
`current`, atomically swap `current`, update the bin symlink, rotate
backups (failure logged), and SIGTERM self. -/
def update (c : Config) (env : Env) (clk : Clock) (v : String) (fs : FS) :
    FS × Option String :=
  match mkdirAllFS fs [dataDir c, versionsKey c] with
  | .error _ => (fs, some "failed to create versions directory")
  | .ok fs1 =>
  match mkdirAllFS fs1 [dataDir c, versionsKey c, versionKey c v] with
  | .error _ => (fs1, some "failed to create version directory")
  | .ok fs2 =>
  match downloadUpdate c env v (versionKey c v) fs2 with
  | (fs3, some _) => (fs3, some ("failed to download version " ++ v))
  | (fs3, none) =>
  match verifyBinary fs3 (versionKey c v ++ [c.binaryName]) with
  | some _ => (fs3, some "binary verification failed")
  | none =>
  match updateBackupStep c clk fs3 with
  | .error e => (fs3, some e)
  | .ok fs4 => updateSwapTail c env clk v fs4

/-- `Supervisor.Rollback`: pick the newest backup, verify its binary,
atomically swap `current` to it, update the bin symlink, remove the
consumed backup link (failure logged), and SIGTERM self. -/
def rollback (c : Config) (env : Env) (clk : Clock) (fs : FS) : FS × Option String :=
  match getBackupSymlinks c fs with
  | .error _ => (fs, some "failed to find backup symlinks")
  | .ok backups =>
  match backups.getLast? with
  | none => (fs, some "no backup symlinks found, cannot rollback")
  | some latestBackup =>
  match readlinkFS fs latestBackup with
  | .error _ => (fs, some "failed to read backup symlink")
  | .ok target =>
  match verifyBinary fs (target ++ [c.binaryName]) with
  | some _ => (fs, some "backup version binary verification failed")
  | none =>
  match symlinkFS fs target (tmpCurKey c clk.nanoCur) with
  | .error _ => (fs, some "failed to create temporary symlink")
  | .ok fs1 =>
  match renameFS fs1 (tmpCurKey c clk.nanoCur) (curKey c) with
  | .error _ => (eraseFS fs1 (tmpCurKey c clk.nanoCur), some "failed to swap symlink")
  | .ok fs2 =>
  match updateBinSymlink c clk fs2 with
  | (fs3, some _) => (fs3, some "failed to update bin symlink")
  | (fs3, none) =>
  let fs4 := eraseFS fs3 latestBackup
  if env.killOk then (fs4, none) else (fs4, some "failed to send termination signal")

/-- One history record: `{Version, LastInstalled}`. -/
structure HistoricVersion where
  version : SemVer
  lastInstalled : DT
  deriving DecidableEq, Repr

/-- Chronological key of a valid (or zero) `DT`; `After` is `>` on it. -/
def dtKey (t : DT) : Nat :=
  ((((t.y * 13 + t.mo) * 32 + t.d) * 24 + t.h) * 60 + t.mi) * 60 + t.s

/-- The descending-by-`LastInstalled` order `History` sorts with. -/
def histRel (a b : HistoricVersion) : Prop :=
  dtKey b.lastInstalled ≤ dtKey a.lastInstalled

instance : DecidableRel histRel := fun _ _ => Nat.decLe _ _

/-- The loop body of `Supervisor.History` for one backup link: resolve
it (broken links are skipped), parse `basename(target)` as semver with
the `legacy` sentinel (other unparsable names are skipped), and attach
the timestamp parsed from the link name. -/
def histRec (fs : FS) (b : Path) : Option HistoricVersion :=
  match readlinkFS fs b with
  | .error _ => none
  | .ok target =>
    let versionName := baseName target
    match parseSemVer versionName with
    | none =>
      if versionName = "legacy" then
        some ⟨legacySentinel, parsePreviousTimestamp (baseName b)⟩
      else none
    | some ver => some ⟨ver, parsePreviousTimestamp (baseName b)⟩

/-- `Supervisor.History`: empty on scan error; otherwise the per-link
records, sorted descending by install time. -/
def history (c : Config) (fs : FS) : List HistoricVersion :=
  match getBackupSymlinks c fs with
  | .error _ => []
  | .ok backups => List.insertionSort histRel (backups.filterMap (histRec fs))

/-! ## The registry client (`Client.Versions`, `CheckForUpdate`) -/

/-- `Client.Versions`: keep the tags that parse as semver, in the order
the registry returned them (the source imports `slices` but contains no
sort call). -/
def versionsOf (tags : List String) : List SemVer := tags.filterMap parseSemVer

/-- `Supervisor.CheckForUpdate`, returning the Go triple
`(update, allVersions, err)`: propagate a listing error, error when no
tag parsed, otherwise report the last listed version as latest and offer
it when it exceeds the compile-time version. -/
def checkForUpdate (cur : SemVer) (tags : Except String (List String)) :
    Option SemVer × List SemVer × Option String :=
  match tags with
  | .error _ => (none, [], some "failed to list tags")
  | .ok ts =>
    let all := versionsOf ts
    match all.getLast? with
    | none => (none, all, some "no versions found in repository")
    | some latest =>
      if gtSemVer latest cur then (some latest, all, none) else (none, all, none)

/-- Maximum by semver precedence, the spec's definition of latest. -/
def maxSemVer (l : List SemVer) : Option SemVer :=
  l.foldl (fun acc v =>
    match acc with
    | none => some v
    | some m => if gtSemVer v m then some v else some m) none

/-! ## Concrete sanity checks of the machine -/

/-- A sample configuration: binary `app`, bin dir `/bin`, versions root
`/lib` (so `dataDir = /lib/app`). -/
def cfgT : Config := ⟨"app", ["bin"], ["lib"]⟩

def elfBytes : List Nat := [0x7f, 0x45, 0x4c, 0x46]

/-- A registry that always serves a valid ELF binary, and a functioning
self-signal. -/
def envOk : Env := ⟨fun _ => ([("app", Node.file 0o644 elfBytes)], none), true⟩

def clkT1 : Clock := ⟨"20240101-120000", "20240101-115959", 5, 6, 7⟩

def clkT2 : Clock := ⟨"20240102-120000", "20240102-115959", 8, 9, 10⟩

def fsAfter1 : FS := (update cfgT envOk clkT1 "1.2.3" []).1

def fsAfter2 : FS := (update cfgT envOk clkT2 "1.2.4" fsAfter1).1

def clkC2 : Clock := ⟨"20240103-120000", "20240103-115959", 5, 6, 7⟩

/-- A state where the nonce-named temporary link `current.tmp.5` already
exists: the atomic-swap staging will fail after the backup was created. -/
def fsC2 : FS :=
  [(["lib", "app"], Node.dir), (["lib", "app", "versions"], Node.dir),
   (["lib", "app", "versions", "1.0.0"], Node.dir),
   (["lib", "app", "versions", "1.0.0", "app"], Node.file 0o755 elfBytes),
   (["lib", "app", "current"], Node.symlink ["lib", "app", "versions", "1.0.0"]),
   (["lib", "app", "current.tmp.5"], Node.file 0o644 []),
   (["bin", "app"], Node.symlink ["lib", "app", "current", "app"])]

/-- A registry that serves an empty (truncated) binary. -/
def envBad : Env := ⟨fun _ => ([("app", Node.file 0o755 [])], none), true⟩

/-- A state whose newest backup points at a version with an empty
binary, so a rollback fails verification. -/
def fsRB : FS :=
  [(["lib", "app"], Node.dir), (["lib", "app", "versions"], Node.dir),
   (["lib", "app", "versions", "0.8.0"], Node.dir),
   (["lib", "app", "versions", "0.8.0", "app"], Node.file 0o755 []),
   (["lib", "app", "previous-20240106-120000"],
     Node.symlink ["lib", "app", "versions", "0.8.0"]),
   (["lib", "app", "current"], Node.symlink ["lib", "app", "versions", "1.0.0"])]

def clkC5 : Clock := ⟨"20240104-120000", "20240104-115959", 8, 9, 10⟩

/-- A state where the backup name `previous-20240104-120000` already
exists (two installs within the same second). -/
def fsC5 : FS :=
  [(["lib", "app"], Node.dir), (["lib", "app", "versions"], Node.dir),
   (["lib", "app", "versions", "0.9.0"], Node.dir),
   (["lib", "app", "versions", "0.9.0", "app"], Node.file 0o755 elfBytes),
   (["lib", "app", "versions", "1.0.0"], Node.dir),
   (["lib", "app", "versions", "1.0.0", "app"], Node.file 0o755 elfBytes),
   (["lib", "app", "current"], Node.symlink ["lib", "app", "versions", "1.0.0"]),
   (["lib", "app", "previous-20240104-120000"],
     Node.symlink ["lib", "app", "versions", "0.9.0"]),
   (["bin", "app"], Node.symlink ["lib", "app", "current", "app"])]

/-- A state whose single backup link resolves to a version directory
whose basename parses neither as semver nor as `legacy`. -/
def fsC8 : FS :=
  [(["lib", "app"], Node.dir), (["lib", "app", "versions"], Node.dir),
   (["lib", "app", "versions", "garbage"], Node.dir),
   (["lib", "app", "previous-20240105-120000"],
     Node.symlink ["lib", "app", "versions", "garbage"])]

/-- A state with five backup links, for exercising the rotation. -/
def fsC3 : FS :=
  [(["lib", "app"], Node.dir),
   (["lib", "app", "previous-20240101-000001"], Node.symlink ["lib", "app", "versions", "1"]),
   (["lib", "app", "previous-20240101-000002"], Node.symlink ["lib", "app", "versions", "2"]),
   (["lib", "app", "previous-20240101-000003"], Node.symlink ["lib", "app", "versions", "3"]),
   (["lib", "app", "previous-20240101-000004"], Node.symlink ["lib", "app", "versions", "4"]),
   (["lib", "app", "previous-20240101-000005"], Node.symlink ["lib", "app", "versions", "5"])]

/-- A state with three installed versions and two backup links: current
at 3.0.0, the newest backup at 2.0.0, the older one at 1.0.0. -/
def fsC4 : FS :=
  [(["lib", "app"], Node.dir), (["lib", "app", "versions"], Node.dir),
   (["lib", "app", "versions", "1.0.0"], Node.dir),
   (["lib", "app", "versions", "1.0.0", "app"], Node.file 0o755 elfBytes),
   (["lib", "app", "versions", "2.0.0"], Node.dir),
   (["lib", "app", "versions", "2.0.0", "app"], Node.file 0o755 elfBytes),
   (["lib", "app", "versions", "3.0.0"], Node.dir),
   (["lib", "app", "versions", "3.0.0", "app"], Node.file 0o755 elfBytes),
   (["lib", "app", "current"], Node.symlink ["lib", "app", "versions", "3.0.0"]),
   (["lib", "app", "previous-20240101-000001"],
     Node.symlink ["lib", "app", "versions", "1.0.0"]),
   (["lib", "app", "previous-20240102-000001"],
     Node.symlink ["lib", "app", "versions", "2.0.0"]),
   (["bin", "app"], Node.symlink ["lib", "app", "current", "app"])]

/-- A legacy installation: `bin_path` is a regular file (not a symlink),
while a symlinked `current` version tree already exists. -/
def fsC7 : FS :=
  [(["lib", "app"], Node.dir), (["lib", "app", "versions"], Node.dir),
   (["lib", "app", "versions", "1.0.0"], Node.dir),
   (["lib", "app", "versions", "1.0.0", "app"], Node.file 0o755 elfBytes),
   (["lib", "app", "current"], Node.symlink ["lib", "app", "versions", "1.0.0"]),
   (["bin", "app"], Node.file 0o755 elfBytes)]

/-! ## Theorems -/

theorem charsLe_total : ∀ as bs, charsLe as bs = true ∨ charsLe bs as = true
  | [], _ => Or.inl rfl
  | _ :: _, [] => Or.inr rfl
  | a :: as, b :: bs => by
    rcases lt_trichotomy a b with h | h | h
    · left; simp [charsLe, h]
    · subst h
      rcases charsLe_total as bs with h2 | h2
      · left; simp [charsLe, h2]
      · right; simp [charsLe, h2]
    · right; simp [charsLe, h]

theorem charsLe_trans : ∀ as bs cs, charsLe as bs = true → charsLe bs cs = true →
    charsLe as cs = true
  | [], _, _ => by intro _ _; rfl
  | _ :: _, [], _ => by intro h _; simp [charsLe] at h
  | _ :: _, _ :: _, [] => by intro _ h; simp [charsLe] at h
  | a :: as, b :: bs, c :: cs => by
    intro h1 h2
    rcases lt_trichotomy a b with hab | hab | hab
    · rcases lt_trichotomy b c with hbc | hbc | hbc
      · simp [charsLe, lt_trans hab hbc]
      · subst hbc; simp [charsLe, hab]
      · simp [charsLe, hbc, not_lt_of_lt hbc] at h2
    · subst hab
      rcases lt_trichotomy a c with hac | hac | hac
      · simp [charsLe, hac]
      · subst hac
        simp only [charsLe, lt_irrefl, if_neg, ite_false] at h1 h2 ⊢
        exact charsLe_trans as bs cs h1 h2
      · simp [charsLe, hac, not_lt_of_lt hac] at h2
    · simp [charsLe, hab, not_lt_of_lt hab] at h1

theorem charsLe_antisymm : ∀ as bs, charsLe as bs = true → charsLe bs as = true → as = bs
  | [], [] => by intro _ _; rfl
  | [], _ :: _ => by intro _ h; simp [charsLe] at h
  | _ :: _, [] => by intro h _; simp [charsLe] at h
  | a :: as, b :: bs => by
    intro h1 h2
    rcases lt_trichotomy a b with hab | hab | hab
    · simp [charsLe, hab, not_lt_of_lt hab] at h2
    · subst hab
      simp only [charsLe, lt_irrefl, if_neg, ite_false] at h1 h2
      rw [charsLe_antisymm as bs h1 h2]
    · simp [charsLe, hab, not_lt_of_lt hab] at h1

theorem string_data_inj {a b : String} (h : a.data = b.data) : a = b := by
  cases a; cases b; simpa using congrArg String.mk h

theorem string_data_append (a b : String) : (a ++ b).data = a.data ++ b.data :=
  String.data_append a b

theorem strRel_total : IsTotal String strRel := ⟨fun a b => charsLe_total a.data b.data⟩

theorem strRel_trans : IsTrans String strRel := ⟨fun a b c => charsLe_trans a.data b.data c.data⟩

theorem strRel_antisymm : IsAntisymm String strRel :=
  ⟨fun a b h1 h2 => string_data_inj (charsLe_antisymm a.data b.data h1 h2)⟩

theorem sortNames_sorted (l : List String) : (sortNames l).Sorted strRel := by
  haveI := strRel_total
  haveI := strRel_trans
  exact List.sorted_insertionSort strRel l

theorem sortNames_perm (l : List String) : List.Perm (sortNames l) l :=
  List.perm_insertionSort strRel l

example : parseSemVer "1.2.3" = some ⟨1, 2, 3, []⟩ := by decide
example : parseSemVer "v1.2" = some ⟨1, 2, 0, []⟩ := by decide
example : parseSemVer "1.2.3-alpha.1" = some ⟨1, 2, 3, [.str "alpha", .num 1]⟩ := by decide
example : parseSemVer "legacy" = none := by decide
example : parseSemVer "latest" = none := by decide
example : parseSemVer "0.0.0-legacy" = some legacySentinel := by decide
example : gtSemVer ⟨2, 0, 0, []⟩ ⟨1, 9, 9, []⟩ = true := by decide
example : gtSemVer ⟨1, 0, 0, []⟩ ⟨1, 0, 0, [.str "rc"]⟩ = true := by decide

theorem digit_round : ∀ k, k < 10 → digitVal (Char.ofNat (48 + k)) = some k := by decide

theorem digitVal_digitChar (n : Nat) : digitVal (digitChar n) = some (n % 10) :=
  digit_round (n % 10) (Nat.mod_lt _ (by decide))

theorem parse2_pad2 (n : Nat) (h : n ≤ 99) :
    parse2 (digitChar (n / 10)) (digitChar n) = some n := by
  simp only [parse2, digitVal_digitChar, Option.bind_eq_bind, Option.some_bind]
  have : 10 * (n / 10 % 10) + n % 10 = n := by omega
  simp [bind, this]

theorem parse4_pad4 (n : Nat) (h : n ≤ 9999) :
    parse4 (digitChar (n / 1000)) (digitChar (n / 100)) (digitChar (n / 10)) (digitChar n) =
      some n := by
  simp only [parse4, parse2, digitVal_digitChar, Option.bind_eq_bind, Option.some_bind]
  have : 100 * (10 * (n / 1000 % 10) + n / 100 % 10) + (10 * (n / 10 % 10) + n % 10) = n := by
    omega
  simp [bind, this]

theorem parseTimestamp_format (t : DT) (h : validDT t = true) :
    parseTimestamp (formatTimestamp t) = some t := by
  have hb : (1 ≤ t.mo ∧ t.mo ≤ 12) ∧ (1 ≤ t.d ∧ t.d ≤ daysInMonth t.y t.mo) ∧
      t.h ≤ 23 ∧ t.mi ≤ 59 ∧ t.s ≤ 59 ∧ t.y ≤ 9999 := by
    simp only [validDT, Bool.and_eq_true, decide_eq_true_eq] at h
    tauto
  have hdm : daysInMonth t.y t.mo ≤ 31 := by
    unfold daysInMonth
    split
    · split <;> omega
    · split <;> omega
  simp only [parseTimestamp, formatTimestamp, pad4, pad2, List.cons_append, List.nil_append]
  rw [parse4_pad4 t.y (by omega), parse2_pad2 t.mo (by omega), parse2_pad2 t.d (by omega),
      parse2_pad2 t.h (by omega), parse2_pad2 t.mi (by omega), parse2_pad2 t.s (by omega)]
  simp [h]

example : (update cfgT envOk clkT1 "1.2.3" []).2 = none := by decide

example : lookupFS fsAfter1 (curKey cfgT) = some (.symlink (versionKey cfgT "1.2.3")) := by
  decide

example : lookupFS fsAfter1 (binPath cfgT) =
    some (.symlink (curKey cfgT ++ ["app"])) := by decide

example : prevNamesRaw (dataDir cfgT) fsAfter1 = [] := by decide

example : (update cfgT envOk clkT2 "1.2.4" fsAfter1).2 = none := by decide

example : lookupFS fsAfter2 (curKey cfgT) = some (.symlink (versionKey cfgT "1.2.4")) := by
  decide

example : prevNamesRaw (dataDir cfgT) fsAfter2 = ["previous-20240102-120000"] := by decide

example : lookupFS fsAfter2 (prevKey cfgT "20240102-120000") =
    some (.symlink (versionKey cfgT "1.2.3")) := by decide

example : (rollback cfgT envOk clkT2 fsAfter2).2 = none := by decide

example : lookupFS (rollback cfgT envOk clkT2 fsAfter2).1 (curKey cfgT) =
    some (.symlink (versionKey cfgT "1.2.3")) := by decide

example : prevNamesRaw (dataDir cfgT) (rollback cfgT envOk clkT2 fsAfter2).1 = [] := by decide

example : history cfgT fsAfter2 =
    [⟨⟨1, 2, 3, []⟩, ⟨2024, 1, 2, 12, 0, 0⟩⟩] := by decide

example : (rollback cfgT envOk clkT1 []).2 = some "failed to find backup symlinks" := by decide

/-! ### Filesystem toolbox -/

theorem lookupFS_erase_ne (fs : FS) (p q : Path) (h : q ≠ p) :
    lookupFS (eraseFS fs p) q = lookupFS fs q := by
  induction fs with
  | nil => rfl
  | cons e rest ih =>
    by_cases h1 : e.1 = p
    · have h2 : p ≠ q := fun hq => h hq.symm
      simp [eraseFS, h1, lookupFS, h2, ih]
    · simp only [eraseFS, if_neg h1, lookupFS, ih]

theorem lookupFS_erase_self (fs : FS) (p : Path) : lookupFS (eraseFS fs p) p = none := by
  induction fs with
  | nil => rfl
  | cons e rest ih =>
    by_cases h1 : e.1 = p
    · simp [eraseFS, h1, ih]
    · simp [eraseFS, h1, lookupFS, ih]

theorem lookupFS_insert_self (fs : FS) (p : Path) (n : Node) :
    lookupFS (insertFS fs p n) p = some n := by
  simp [insertFS, lookupFS]

theorem lookupFS_insert_ne (fs : FS) (p q : Path) (n : Node) (h : q ≠ p) :
    lookupFS (insertFS fs p n) q = lookupFS fs q := by
  have h2 : p ≠ q := fun hq => h hq.symm
  simp [insertFS, lookupFS, h2, lookupFS_erase_ne fs p q h]

theorem lookupFS_eq_none_iff (fs : FS) (q : Path) :
    lookupFS fs q = none ↔ ∀ e ∈ fs, e.1 ≠ q := by
  induction fs with
  | nil => simp [lookupFS]
  | cons e rest ih =>
    by_cases h1 : e.1 = q
    · simp only [lookupFS, if_pos h1]
      constructor
      · intro hx; exact absurd hx (by simp)
      · intro hall; exact absurd h1 (hall e (by simp))
    · simp only [lookupFS, if_neg h1, ih]
      constructor
      · intro hall f hf
        rcases List.mem_cons.1 hf with rfl | hf2
        · exact h1
        · exact hall f hf2
      · intro hall f hf
        exact hall f (List.mem_cons_of_mem _ hf)

theorem eraseFS_lookup_none (fs : FS) (p : Path) (h : lookupFS fs p = none) :
    eraseFS fs p = fs := by
  induction fs with
  | nil => rfl
  | cons e rest ih =>
    by_cases h1 : e.1 = p
    · simp [lookupFS, h1] at h
    · simp only [lookupFS, if_neg h1] at h
      simp [eraseFS, h1, ih h]

theorem eraseFS_sublist (fs : FS) (p : Path) : List.Sublist (eraseFS fs p) fs := by
  induction fs with
  | nil => exact List.Sublist.refl _
  | cons e rest ih =>
    by_cases h1 : e.1 = p
    · simp only [eraseFS, if_pos h1]
      exact ih.cons e
    · simp only [eraseFS, if_neg h1]
      exact ih.cons₂ e

theorem WFfs_erase (fs : FS) (p : Path) (h : WFfs fs) : WFfs (eraseFS fs p) :=
  List.Nodup.sublist (List.Sublist.map Prod.fst (eraseFS_sublist fs p)) h

theorem WFfs_insert (fs : FS) (p : Path) (n : Node) (h : WFfs fs) :
    WFfs (insertFS fs p n) := by
  refine List.Nodup.cons ?_ (WFfs_erase fs p h)
  intro hmem
  rcases List.mem_map.1 hmem with ⟨e, he, hfst⟩
  exact ((lookupFS_eq_none_iff (eraseFS fs p) p).1 (lookupFS_erase_self fs p)) e he hfst

/-! ### Backup-name bookkeeping -/

theorem prevContrib_some (dd : Path) (e : Path × Node) (nm : String)
    (h : prevContrib dd e = some nm) :
    e.1 = dd ++ [nm] ∧ isPrevName nm = true ∧ ∃ t, e.2 = Node.symlink t := by
  rcases e with ⟨k, n⟩
  cases n with
  | symlink t =>
    induction k using List.reverseRecOn with
    | nil => simp [prevContrib] at h
    | append_singleton l a _ =>
      simp only [prevContrib, List.getLast?_concat, List.dropLast_concat] at h
      by_cases hc : l = dd ∧ isPrevName a = true
      · rw [if_pos hc] at h
        obtain rfl : a = nm := by simpa using h
        exact ⟨by rw [hc.1], hc.2, t, rfl⟩
      · rw [if_neg hc] at h
        exact absurd h (by simp)
  | file mode content => exact absurd h (by simp [prevContrib])
  | dir => exact absurd h (by simp [prevContrib])

theorem prevContrib_none_of_not_key (dd k : Path) (n : Node)
    (h : isPrevKeyB dd k = false) : prevContrib dd (k, n) = none := by
  cases n with
  | symlink t =>
    induction k using List.reverseRecOn with
    | nil => simp [prevContrib]
    | append_singleton l a _ =>
      simp only [prevContrib, List.getLast?_concat, List.dropLast_concat]
      simp only [isPrevKeyB, List.getLast?_concat, List.dropLast_concat] at h
      have hns : ¬ (l = dd ∧ isPrevName a = true) := by
        intro hc
        rw [hc.1, hc.2] at h
        simp at h
      rw [if_neg hns]
  | file mode content => rfl
  | dir => rfl

theorem prevNamesRaw_cons (dd : Path) (e : Path × Node) (fs : FS) :
    prevNamesRaw dd (e :: fs) =
      match prevContrib dd e with
      | some nm => nm :: prevNamesRaw dd fs
      | none => prevNamesRaw dd fs := by
  simp only [prevNamesRaw, List.filterMap_cons]
  rcases prevContrib dd e with _ | nm <;> rfl

theorem prevNamesRaw_cons_some (dd : Path) (e : Path × Node) (fs : FS) (m : String)
    (hc : prevContrib dd e = some m) :
    prevNamesRaw dd (e :: fs) = m :: prevNamesRaw dd fs := by
  rw [prevNamesRaw_cons, hc]

theorem prevNamesRaw_cons_none (dd : Path) (e : Path × Node) (fs : FS)
    (hc : prevContrib dd e = none) :
    prevNamesRaw dd (e :: fs) = prevNamesRaw dd fs := by
  rw [prevNamesRaw_cons, hc]

theorem prevNamesRaw_erase_of_not_key (dd k : Path) (fs : FS)
    (h : isPrevKeyB dd k = false) :
    prevNamesRaw dd (eraseFS fs k) = prevNamesRaw dd fs := by
  induction fs with
  | nil => rfl
  | cons e rest ih =>
    by_cases h1 : e.1 = k
    · rw [prevNamesRaw_cons]
      have : prevContrib dd e = none := by
        rcases e with ⟨k0, n0⟩
        cases h1
        exact prevContrib_none_of_not_key dd k0 n0 h
      rw [this]
      simp only [eraseFS, if_pos h1]
      exact ih
    · simp only [eraseFS, if_neg h1]
      rw [prevNamesRaw_cons, prevNamesRaw_cons, ih]

theorem prevNamesRaw_insert_of_not_key (dd k : Path) (n : Node) (fs : FS)
    (h : isPrevKeyB dd k = false) :
    prevNamesRaw dd (insertFS fs k n) = prevNamesRaw dd fs := by
  simp only [insertFS]
  rw [prevNamesRaw_cons, prevContrib_none_of_not_key dd k n h]
  exact prevNamesRaw_erase_of_not_key dd k fs h

theorem isPrevKeyB_child (dd : Path) (x : String) :
    isPrevKeyB dd (dd ++ [x]) = isPrevName x := by
  simp [isPrevKeyB, List.getLast?_concat, List.dropLast_concat]

theorem prevNamesRaw_insert_prev (dd : Path) (nm : String) (t : Path) (fs : FS)
    (hnm : isPrevName nm = true) (hl : lookupFS fs (dd ++ [nm]) = none) :
    prevNamesRaw dd (insertFS fs (dd ++ [nm]) (Node.symlink t)) = nm :: prevNamesRaw dd fs := by
  simp only [insertFS]
  rw [eraseFS_lookup_none fs _ hl, prevNamesRaw_cons]
  have : prevContrib dd (dd ++ [nm], Node.symlink t) = some nm := by
    simp [prevContrib, List.getLast?_concat, List.dropLast_concat, hnm]
  rw [this]

theorem prevNamesRaw_mem_key (dd : Path) (fs : FS) (nm : String)
    (h : nm ∈ prevNamesRaw dd fs) : (dd ++ [nm]) ∈ fs.map Prod.fst := by
  induction fs with
  | nil => simp [prevNamesRaw] at h
  | cons e rest ih =>
    rw [prevNamesRaw_cons] at h
    rcases hc : prevContrib dd e with _ | m
    · rw [hc] at h
      exact List.mem_cons_of_mem _ (ih h)
    · rw [hc] at h
      rcases List.mem_cons.1 h with rfl | h2
      · exact List.mem_cons.2 (Or.inl (prevContrib_some dd e nm hc).1.symm)
      · exact List.mem_cons_of_mem _ (ih h2)

theorem prevNamesRaw_mem_isPrev (dd : Path) (fs : FS) (nm : String)
    (h : nm ∈ prevNamesRaw dd fs) : isPrevName nm = true := by
  induction fs with
  | nil => simp [prevNamesRaw] at h
  | cons e rest ih =>
    rw [prevNamesRaw_cons] at h
    rcases hc : prevContrib dd e with _ | m
    · rw [hc] at h; exact ih h
    · rw [hc] at h
      rcases List.mem_cons.1 h with rfl | h2
      · exact (prevContrib_some dd e nm hc).2.1
      · exact ih h2

theorem prevNamesRaw_nodup (dd : Path) (fs : FS) (h : WFfs fs) :
    (prevNamesRaw dd fs).Nodup := by
  induction fs with
  | nil => exact List.nodup_nil
  | cons e rest ih =>
    obtain ⟨hnotin, hWFr⟩ := List.nodup_cons.1 h
    rw [prevNamesRaw_cons]
    rcases hc : prevContrib dd e with _ | m
    · exact ih hWFr
    · refine List.Nodup.cons ?_ (ih hWFr)
      intro hmem
      have hkey := prevNamesRaw_mem_key dd rest m hmem
      have he1 : e.1 = dd ++ [m] := (prevContrib_some dd e m hc).1
      rw [← he1] at hkey
      exact hnotin hkey

theorem prevNamesRaw_erase_prev (dd : Path) (fs : FS) (nm : String) (hWF : WFfs fs) :
    prevNamesRaw dd (eraseFS fs (dd ++ [nm])) = (prevNamesRaw dd fs).erase nm := by
  induction fs with
  | nil => rfl
  | cons e rest ih =>
    obtain ⟨hnotin, hWFr⟩ := List.nodup_cons.1 hWF
    by_cases h1 : e.1 = dd ++ [nm]
    · have hrest : eraseFS rest (dd ++ [nm]) = rest := by
        apply eraseFS_lookup_none
        rw [lookupFS_eq_none_iff]
        intro f hf hfeq
        rw [← h1] at hfeq
        exact hnotin (hfeq ▸ List.mem_map_of_mem Prod.fst hf)
      have hnm_notin : nm ∉ prevNamesRaw dd rest := by
        intro hmem
        have := prevNamesRaw_mem_key dd rest nm hmem
        rw [← h1] at this
        exact hnotin this
      simp only [eraseFS, if_pos h1, hrest]
      rcases hc : prevContrib dd e with _ | m
      · rw [prevNamesRaw_cons_none dd e rest hc, List.erase_of_not_mem hnm_notin]
      · have hm : m = nm := by
          have := (prevContrib_some dd e m hc).1
          rw [h1] at this
          simpa using this.symm
        subst hm
        rw [prevNamesRaw_cons_some dd e rest m hc, List.erase_cons_head]
    · simp only [eraseFS, if_neg h1]
      rcases hc : prevContrib dd e with _ | m
      · rw [prevNamesRaw_cons_none dd e _ hc, prevNamesRaw_cons_none dd e _ hc, ih hWFr]
      · have hm : m ≠ nm := by
          intro hmeq
          have := (prevContrib_some dd e m hc).1
          rw [hmeq] at this
          exact h1 this
        rw [prevNamesRaw_cons_some dd e _ m hc, prevNamesRaw_cons_some dd e _ m hc,
            List.erase_cons_tail (by simpa using hm), ih hWFr]

/-! ### Path and name disequalities -/

theorem str_len_ne {a b : String} (h : a.data.length ≠ b.data.length) : a ≠ b :=
  fun e => h (congrArg (fun s => s.data.length) e)

theorem strne_of_head {a b : String} {x y : Char} {xs ys : List Char}
    (ha : a.data = x :: xs) (hb : b.data = y :: ys) (h : x ≠ y) : a ≠ b := by
  intro e
  rw [e, hb] at ha
  exact h (by injection ha with h1 _; exact h1.symm)

theorem strApp_left_cancel (p a b : String) : p ++ a = p ++ b ↔ a = b := by
  constructor
  · intro h
    have h2 := congrArg String.data h
    rw [string_data_append, string_data_append] at h2
    exact string_data_inj (List.append_cancel_left h2)
  · intro h; rw [h]

theorem childKey_inj (d1 d2 : Path) (x y : String) :
    d1 ++ [x] = d2 ++ [y] ↔ d1 = d2 ∧ x = y := by
  constructor
  · intro h
    have h1 := congrArg List.dropLast h
    simp only [List.dropLast_concat] at h1
    have h2 := congrArg List.getLast? h
    simp only [List.getLast?_concat, Option.some_inj] at h2
    exact ⟨h1, h2⟩
  · rintro ⟨rfl, rfl⟩; rfl

theorem key_len_ne {p q : Path} (h : p.length ≠ q.length) : p ≠ q :=
  fun e => h (congrArg List.length e)

theorem prevName_ne_current (ts : String) : ("previous-" ++ ts) ≠ "current" :=
  strne_of_head (by rw [string_data_append]; rfl) rfl (by decide)

theorem prevName_ne_versions (ts : String) : ("previous-" ++ ts) ≠ "versions" :=
  strne_of_head (by rw [string_data_append]; rfl) rfl (by decide)

theorem prevName_ne_tmpCur (ts r : String) :
    ("previous-" ++ ts) ≠ ("current.tmp." ++ r) :=
  strne_of_head (by rw [string_data_append]; rfl) (by rw [string_data_append]; rfl) (by decide)

theorem tmpCur_ne_current (r : String) : ("current.tmp." ++ r) ≠ "current" := by
  apply str_len_ne
  rw [string_data_append]
  have h1 : ("current.tmp." : String).data.length = 12 := rfl
  have h2 : ("current" : String).data.length = 7 := rfl
  rw [List.length_append, h1, h2]
  omega

theorem tmpCur_ne_versions (r : String) : ("current.tmp." ++ r) ≠ "versions" :=
  strne_of_head (by rw [string_data_append]; rfl) rfl (by decide)

theorem prevName_inj (t1 t2 : String) :
    ("previous-" ++ t1) = ("previous-" ++ t2) ↔ t1 = t2 := strApp_left_cancel _ _ _

theorem isPrevName_prevStr (ts : String) (h : ts.data ≠ []) :
    isPrevName ("previous-" ++ ts) = true := by
  simp only [isPrevName, string_data_append]
  have h1 : 9 < (prevPrefixChars ++ ts.data).length := by
    rw [List.length_append]
    have := List.length_pos.2 h
    have hlen : prevPrefixChars.length = 9 := rfl
    omega
  have h2 : (prevPrefixChars ++ ts.data).take 9 = prevPrefixChars :=
    List.take_left prevPrefixChars ts.data
  have hpos : 0 < ts.data.length := List.length_pos.2 h
  have hq : ts.length = ts.data.length := rfl
  have hc9 : prevPrefixChars.length = 9 := rfl
  exact show (decide (9 < (prevPrefixChars ++ ts.data).length) &&
      ((prevPrefixChars ++ ts.data).take 9 == prevPrefixChars)) = true by
    simp [h2]
    omega

theorem isPrevName_current : isPrevName "current" = false := by decide

theorem isPrevName_versions : isPrevName "versions" = false := by decide

theorem isPrevName_tmpCur (r : String) : isPrevName ("current.tmp." ++ r) = false := by
  simp only [isPrevName, string_data_append]
  have h2 : (("current.tmp." : String).data ++ r.data).take 9 =
      ("current.tmp." : String).data.take 9 :=
    List.take_append_of_le_length (by decide)
  exact show (decide (9 < (("current.tmp." : String).data ++ r.data).length) &&
      ((("current.tmp." : String).data ++ r.data).take 9 == prevPrefixChars)) = false by
    rw [h2, show ((("current.tmp." : String).data.take 9 == prevPrefixChars)) = false from
      by decide, Bool.and_false]

/-! ### Bulk operations -/

theorem lookupFS_foldl_insert_ne (l : List (String × Node)) (dest : Path) (fs : FS)
    (q : Path) (h : ∀ x, q ≠ dest ++ [x]) :
    lookupFS (l.foldl (fun acc e => insertFS acc (dest ++ [e.1]) e.2) fs) q = lookupFS fs q := by
  induction l generalizing fs with
  | nil => rfl
  | cons e rest ih =>
    rw [List.foldl_cons, ih (insertFS fs (dest ++ [e.1]) e.2),
        lookupFS_insert_ne fs (dest ++ [e.1]) q e.2 (h e.1)]

theorem prevNamesRaw_foldl_insert (dd : Path) (l : List (String × Node)) (dest : Path)
    (fs : FS) (h : ∀ x, isPrevKeyB dd (dest ++ [x]) = false) :
    prevNamesRaw dd (l.foldl (fun acc e => insertFS acc (dest ++ [e.1]) e.2) fs) =
      prevNamesRaw dd fs := by
  induction l generalizing fs with
  | nil => rfl
  | cons e rest ih =>
    rw [List.foldl_cons, ih (insertFS fs (dest ++ [e.1]) e.2),
        prevNamesRaw_insert_of_not_key dd (dest ++ [e.1]) e.2 fs (h e.1)]

theorem WFfs_foldl_insert (l : List (String × Node)) (dest : Path) (fs : FS)
    (h : WFfs fs) :
    WFfs (l.foldl (fun acc e => insertFS acc (dest ++ [e.1]) e.2) fs) := by
  induction l generalizing fs with
  | nil => exact h
  | cons e rest ih =>
    rw [List.foldl_cons]
    exact ih _ (WFfs_insert fs (dest ++ [e.1]) e.2 h)

theorem lookupFS_foldl_erase_ne (l : List Path) (fs : FS) (q : Path)
    (h : ∀ p ∈ l, q ≠ p) :
    lookupFS (l.foldl (fun acc p => eraseFS acc p) fs) q = lookupFS fs q := by
  induction l generalizing fs with
  | nil => rfl
  | cons p rest ih =>
    rw [List.foldl_cons, ih (eraseFS fs p) (fun r hr => h r (List.mem_cons_of_mem _ hr)),
        lookupFS_erase_ne fs p q (h p (List.mem_cons_self _ _))]

theorem WFfs_foldl_erase (l : List Path) (fs : FS) (h : WFfs fs) :
    WFfs (l.foldl (fun acc p => eraseFS acc p) fs) := by
  induction l generalizing fs with
  | nil => exact h
  | cons p rest ih =>
    rw [List.foldl_cons]
    exact ih _ (WFfs_erase fs p h)

/-! ### Sorted backup-name lemmas -/

theorem prevNames_of_raw_eq {c : Config} {fs1 fs2 : FS}
    (h : prevNamesRaw (dataDir c) fs2 = prevNamesRaw (dataDir c) fs1) :
    prevNames c fs2 = prevNames c fs1 := by
  unfold prevNames
  rw [h]

theorem prevNames_insert_prev (c : Config) (fs : FS) (nm : String) (t : Path)
    (hnm : isPrevName nm = true) (hl : lookupFS fs (dataDir c ++ [nm]) = none) :
    prevNames c (insertFS fs (dataDir c ++ [nm]) (Node.symlink t)) =
      List.orderedInsert strRel nm (prevNames c fs) := by
  unfold prevNames
  rw [prevNamesRaw_insert_prev (dataDir c) nm t fs hnm hl]
  simp [sortNames, List.insertionSort]

theorem prevNames_erase_prev (c : Config) (fs : FS) (nm : String) (hWF : WFfs fs) :
    prevNames c (eraseFS fs (dataDir c ++ [nm])) = (prevNames c fs).erase nm := by
  refine @List.eq_of_perm_of_sorted String strRel strRel_antisymm _ _ ?_ ?_ ?_
  · unfold prevNames
    rw [prevNamesRaw_erase_prev (dataDir c) fs nm hWF]
    exact (sortNames_perm _).trans ((sortNames_perm _).erase nm).symm
  · exact sortNames_sorted _
  · exact (sortNames_sorted _).sublist (List.erase_sublist _ _)

theorem getBackupSymlinks_ok (c : Config) (fs : FS)
    (hdir : lookupFS fs (dataDir c) = some Node.dir) :
    getBackupSymlinks c fs = .ok ((prevNames c fs).map (fun n => dataDir c ++ [n])) := by
  simp [getBackupSymlinks, hdir, prevNames]

theorem foldl_erase_map (c : Config) (names : List String) (fs : FS) :
    (names.map (fun n => dataDir c ++ [n])).foldl (fun acc p => eraseFS acc p) fs =
      names.foldl (fun acc nm => eraseFS acc (dataDir c ++ [nm])) fs := by
  induction names generalizing fs with
  | nil => rfl
  | cons nm rest ih => simp [ih]

theorem foldl_erase_names (c : Config) : ∀ (pre suf : List String) (fs : FS), WFfs fs →
    prevNames c fs = pre ++ suf →
    prevNames c (pre.foldl (fun acc nm => eraseFS acc (dataDir c ++ [nm])) fs) = suf ∧
    WFfs (pre.foldl (fun acc nm => eraseFS acc (dataDir c ++ [nm])) fs)
  | [], suf, fs, hWF, hsplit => ⟨by simpa using hsplit, hWF⟩
  | nm :: pre, suf, fs, hWF, hsplit => by
    rw [List.foldl_cons]
    apply foldl_erase_names c pre suf (eraseFS fs (dataDir c ++ [nm])) (WFfs_erase fs _ hWF)
    rw [prevNames_erase_prev c fs nm hWF, hsplit]
    exact List.erase_cons_head nm _

theorem cleanup_core (c : Config) (fs : FS) (keep : Nat) (hWF : WFfs fs)
    (hdir : lookupFS fs (dataDir c) = some Node.dir) :
    prevNames c (cleanupOldBackups c keep fs).1 =
      (prevNames c fs).drop ((prevNames c fs).length - keep) ∧
    (cleanupOldBackups c keep fs).2 = none ∧
    WFfs (cleanupOldBackups c keep fs).1 := by
  have hback := getBackupSymlinks_ok c fs hdir
  by_cases hlen : ((prevNames c fs).map (fun n => dataDir c ++ [n])).length > keep
  · have hfold :
        ((prevNames c fs).map (fun n => dataDir c ++ [n])).take
            (((prevNames c fs).map (fun n => dataDir c ++ [n])).length - keep) =
          (((prevNames c fs).take ((prevNames c fs).length - keep)).map
            (fun n => dataDir c ++ [n])) := by
      rw [List.map_take, List.length_map]
    have hcl : cleanupOldBackups c keep fs =
        ((((prevNames c fs).take ((prevNames c fs).length - keep)).map
            (fun n => dataDir c ++ [n])).foldl (fun acc p => eraseFS acc p) fs, none) := by
      simp only [cleanupOldBackups, hback]
      rw [if_pos hlen, hfold]
    rw [hcl]
    have hmain := foldl_erase_names c ((prevNames c fs).take ((prevNames c fs).length - keep))
      ((prevNames c fs).drop ((prevNames c fs).length - keep)) fs hWF
      (List.take_append_drop _ _).symm
    refine ⟨?_, rfl, ?_⟩
    · rw [foldl_erase_map]
      exact hmain.1
    · rw [foldl_erase_map]
      exact hmain.2
  · have hcl : cleanupOldBackups c keep fs = (fs, none) := by
      simp only [cleanupOldBackups, hback]
      rw [if_neg hlen]
    rw [hcl]
    rw [List.length_map] at hlen
    have : (prevNames c fs).length - keep = 0 := by omega
    rw [this]
    exact ⟨rfl, rfl, hWF⟩

theorem cleanup_lookup (c : Config) (fs : FS) (keep : Nat) (q : Path)
    (hdir : lookupFS fs (dataDir c) = some Node.dir)
    (h : ∀ nm, isPrevName nm = true → q ≠ dataDir c ++ [nm]) :
    lookupFS (cleanupOldBackups c keep fs).1 q = lookupFS fs q := by
  have hback := getBackupSymlinks_ok c fs hdir
  simp only [cleanupOldBackups, hback]
  by_cases hlen : ((prevNames c fs).map (fun n => dataDir c ++ [n])).length > keep
  · rw [if_pos hlen]
    apply lookupFS_foldl_erase_ne
    intro p hp
    have hp2 := List.mem_of_mem_take hp
    rcases List.mem_map.1 hp2 with ⟨nm, hnm, rfl⟩
    have : isPrevName nm = true := by
      have := (sortNames_perm _).mem_iff.1 hnm
      exact prevNamesRaw_mem_isPrev _ _ _ this
    exact h nm this
  · rw [if_neg hlen]

/-! ### Key classification -/

theorem isPrevKeyB_false_of_parent (dd k : Path) (h : k.dropLast ≠ dd) :
    isPrevKeyB dd k = false := by
  unfold isPrevKeyB
  cases hk : k.getLast? with
  | none => rfl
  | some m =>
    show ((k.dropLast == dd) && isPrevName m) = false
    rw [beq_eq_false_iff_ne.2 h, Bool.false_and]

theorem append_singleton_ne (p : Path) (x : String) : p ++ [x] ≠ p := by
  apply key_len_ne
  simp

theorem isPrevKeyB_child_false (dd : Path) (x : String) (h : isPrevName x = false) :
    isPrevKeyB dd (dd ++ [x]) = false := by
  rw [isPrevKeyB_child, h]

theorem dropLast_append_pair (p : Path) (a b : String) :
    (p ++ [a, b]).dropLast = p ++ [a] := by
  rw [show p ++ [a, b] = (p ++ [a]) ++ [b] by simp, List.dropLast_concat]

theorem isPrevKeyB_pair (dd : Path) (a b : String) :
    isPrevKeyB dd (dd ++ [a, b]) = false := by
  apply isPrevKeyB_false_of_parent
  rw [dropLast_append_pair]
  exact append_singleton_ne dd a

theorem isPrevKeyB_triple (dd : Path) (a b e : String) :
    isPrevKeyB dd (dd ++ [a, b] ++ [e]) = false := by
  apply isPrevKeyB_false_of_parent
  rw [List.dropLast_concat]
  apply key_len_ne
  simp

theorem isPrevKeyB_self (dd : Path) (hk : dd ≠ []) : isPrevKeyB dd dd = false := by
  apply isPrevKeyB_false_of_parent
  apply key_len_ne
  have : 0 < dd.length := List.length_pos.2 hk
  rw [List.length_dropLast]
  omega

theorem dataDir_ne_nil (c : Config) : dataDir c ≠ [] := by
  unfold dataDir
  intro h
  have := congrArg List.length h
  simp at this

/-! ### Step-effect lemmas -/

theorem mkdirOne_dir_after {fs f2 : FS} {p : Path} (h : mkdirOneFS fs p = .ok f2) :
    lookupFS f2 p = some Node.dir := by
  unfold mkdirOneFS at h
  rcases hl : lookupFS fs p with _ | n
  · rw [hl] at h
    obtain rfl : insertFS fs p Node.dir = f2 := by simpa using h
    exact lookupFS_insert_self fs p Node.dir
  · rw [hl] at h
    cases n with
    | dir =>
      have h2 : (Except.ok fs : Except String FS) = Except.ok f2 := h
      obtain rfl := Except.ok.inj h2
      exact hl
    | symlink t => simp at h
    | file mode content => simp at h

theorem mkdirOne_preserves_dir {fs f2 : FS} {k : Path} (h : mkdirOneFS fs k = .ok f2)
    {p : Path} (hdir : lookupFS fs p = some Node.dir) : lookupFS f2 p = some Node.dir := by
  unfold mkdirOneFS at h
  rcases hl : lookupFS fs k with _ | n
  · rw [hl] at h
    obtain rfl : insertFS fs k Node.dir = f2 := by simpa using h
    by_cases hpk : p = k
    · subst hpk
      exact lookupFS_insert_self fs p Node.dir
    · rw [lookupFS_insert_ne fs k p Node.dir hpk]
      exact hdir
  · rw [hl] at h
    cases n with
    | dir =>
      have h2 : (Except.ok fs : Except String FS) = Except.ok f2 := h
      obtain rfl := Except.ok.inj h2
      exact hdir
    | symlink t => simp at h
    | file mode content => simp at h

theorem mkdirOne_raw {fs f2 : FS} {k : Path} (dd : Path) (h : mkdirOneFS fs k = .ok f2) :
    prevNamesRaw dd f2 = prevNamesRaw dd fs := by
  unfold mkdirOneFS at h
  rcases hl : lookupFS fs k with _ | n
  · rw [hl] at h
    obtain rfl : insertFS fs k Node.dir = f2 := by simpa using h
    unfold insertFS
    rw [prevNamesRaw_cons_none dd (k, Node.dir) _ rfl, eraseFS_lookup_none fs k hl]
  · rw [hl] at h
    cases n with
    | dir =>
      have h2 : (Except.ok fs : Except String FS) = Except.ok f2 := h
      obtain rfl := Except.ok.inj h2
      rfl
    | symlink t => simp at h
    | file mode content => simp at h

theorem mkdirOne_lookup_ne {fs f2 : FS} {k : Path} (h : mkdirOneFS fs k = .ok f2)
    {q : Path} (hq : q ≠ k) : lookupFS f2 q = lookupFS fs q := by
  unfold mkdirOneFS at h
  rcases hl : lookupFS fs k with _ | n
  · rw [hl] at h
    obtain rfl : insertFS fs k Node.dir = f2 := by simpa using h
    exact lookupFS_insert_ne fs k q Node.dir hq
  · rw [hl] at h
    cases n with
    | dir =>
      have h2 : (Except.ok fs : Except String FS) = Except.ok f2 := h
      obtain rfl := Except.ok.inj h2
      rfl
    | symlink t => simp at h
    | file mode content => simp at h

theorem mkdirOne_WF {fs f2 : FS} {k : Path} (h : mkdirOneFS fs k = .ok f2)
    (hWF : WFfs fs) : WFfs f2 := by
  unfold mkdirOneFS at h
  rcases hl : lookupFS fs k with _ | n
  · rw [hl] at h
    obtain rfl : insertFS fs k Node.dir = f2 := by simpa using h
    exact WFfs_insert fs k Node.dir hWF
  · rw [hl] at h
    cases n with
    | dir =>
      have h2 : (Except.ok fs : Except String FS) = Except.ok f2 := h
      obtain rfl := Except.ok.inj h2
      exact hWF
    | symlink t => simp at h
    | file mode content => simp at h

theorem mkdirAll_raw (dd : Path) : ∀ (ps : List Path) (fs f2 : FS),
    mkdirAllFS fs ps = .ok f2 → prevNamesRaw dd f2 = prevNamesRaw dd fs
  | [], fs, f2, h => by simp only [mkdirAllFS] at h; cases h; rfl
  | p :: rest, fs, f2, h => by
    unfold mkdirAllFS at h
    rcases hm : mkdirOneFS fs p with e | fmid
    · rw [hm] at h; simp at h
    · rw [hm] at h
      rw [mkdirAll_raw dd rest fmid f2 h, mkdirOne_raw dd hm]

theorem mkdirAll_lookup_ne : ∀ (ps : List Path) (fs f2 : FS),
    mkdirAllFS fs ps = .ok f2 → ∀ q : Path, (∀ p ∈ ps, q ≠ p) →
    lookupFS f2 q = lookupFS fs q
  | [], fs, f2, h, q, hq => by simp only [mkdirAllFS] at h; cases h; rfl
  | p :: rest, fs, f2, h, q, hq => by
    unfold mkdirAllFS at h
    rcases hm : mkdirOneFS fs p with e | fmid
    · rw [hm] at h; simp at h
    · rw [hm] at h
      rw [mkdirAll_lookup_ne rest fmid f2 h q
          (fun r hr => hq r (List.mem_cons_of_mem _ hr)),
        mkdirOne_lookup_ne hm (hq p (List.mem_cons_self _ _))]

theorem mkdirAll_WF : ∀ (ps : List Path) (fs f2 : FS),
    mkdirAllFS fs ps = .ok f2 → WFfs fs → WFfs f2
  | [], fs, f2, h, hWF => by simp only [mkdirAllFS] at h; cases h; exact hWF
  | p :: rest, fs, f2, h, hWF => by
    unfold mkdirAllFS at h
    rcases hm : mkdirOneFS fs p with e | fmid
    · rw [hm] at h; simp at h
    · rw [hm] at h
      exact mkdirAll_WF rest fmid f2 h (mkdirOne_WF hm hWF)

theorem mkdirAll_dir_of_mem : ∀ (ps : List Path) (fs f2 : FS),
    mkdirAllFS fs ps = .ok f2 → ∀ p ∈ ps, lookupFS f2 p = some Node.dir
  | [], fs, f2, h, p, hp => by simp at hp
  | k :: rest, fs, f2, h, p, hp => by
    unfold mkdirAllFS at h
    rcases hm : mkdirOneFS fs k with e | fmid
    · rw [hm] at h; simp at h
    · rw [hm] at h
      rcases List.mem_cons.1 hp with rfl | hp2
      · exact mkdirAll_preserves_dir rest fmid f2 h (mkdirOne_dir_after hm)
      · exact mkdirAll_dir_of_mem rest fmid f2 h p hp2
where
  mkdirAll_preserves_dir : ∀ (ps : List Path) (fs f2 : FS),
      mkdirAllFS fs ps = .ok f2 → ∀ {p : Path}, lookupFS fs p = some Node.dir →
      lookupFS f2 p = some Node.dir
    | [], fs, f2, h, p, hdir => by simp only [mkdirAllFS] at h; cases h; exact hdir
    | k :: rest, fs, f2, h, p, hdir => by
      unfold mkdirAllFS at h
      rcases hm : mkdirOneFS fs k with e | fmid
      · rw [hm] at h; simp at h
      · rw [hm] at h
        exact mkdirAll_preserves_dir rest fmid f2 h (mkdirOne_preserves_dir hm hdir)

theorem symlinkFS_ok {fs f2 : FS} {t p : Path} (h : symlinkFS fs t p = .ok f2) :
    lookupFS fs p = none ∧ f2 = insertFS fs p (Node.symlink t) := by
  unfold symlinkFS at h
  rcases hl : lookupFS fs p with _ | n
  · rw [hl] at h
    have h2 : (Except.ok (insertFS fs p (Node.symlink t)) : Except String FS) = Except.ok f2 := h
    exact ⟨rfl, (Except.ok.inj h2).symm⟩
  · rw [hl] at h
    simp at h

theorem renameFS_ok {fs f2 : FS} {src dst : Path} (h : renameFS fs src dst = .ok f2) :
    ∃ n, lookupFS fs src = some n ∧ f2 = insertFS (eraseFS fs src) dst n := by
  unfold renameFS at h
  rcases hl : lookupFS fs src with _ | n
  · rw [hl] at h; simp at h
  · rw [hl] at h
    have h2 : (Except.ok (insertFS (eraseFS fs src) dst n) : Except String FS) =
        Except.ok f2 := h
    exact ⟨n, rfl, (Except.ok.inj h2).symm⟩

theorem download_shape (c : Config) (env : Env) (v : String) (dest : Path) (fs : FS) :
    (downloadUpdate c env v dest fs).1 = fs ∨
    ∃ fsm, mkdirOneFS fs dest = .ok fsm ∧
      ((downloadUpdate c env v dest fs).1 =
          (env.download v).1.foldl (fun acc e => insertFS acc (dest ++ [e.1]) e.2) fsm ∨
        ∃ content, (downloadUpdate c env v dest fs).1 =
          insertFS ((env.download v).1.foldl (fun acc e => insertFS acc (dest ++ [e.1]) e.2) fsm)
            (dest ++ [c.binaryName]) (Node.file 0o755 content)) := by
  unfold downloadUpdate
  rcases hm : mkdirOneFS fs dest with e | fsm
  · exact Or.inl rfl
  · refine Or.inr ⟨fsm, rfl, ?_⟩
    dsimp only
    rcases hdl : (env.download v).2 with _ | derr
    · rcases hl : lookupFS ((env.download v).1.foldl
          (fun acc e => insertFS acc (dest ++ [e.1]) e.2) fsm) (dest ++ [c.binaryName]) with
        _ | n
      · exact Or.inl rfl
      · cases n with
        | file mode content => exact Or.inr ⟨content, rfl⟩
        | symlink t => exact Or.inl rfl
        | dir => exact Or.inl rfl
    · exact Or.inl rfl

theorem download_raw (c : Config) (env : Env) (v : String) (dest : Path) (fs : FS) (dd : Path)
    (hprev : ∀ x, isPrevKeyB dd (dest ++ [x]) = false) :
    prevNamesRaw dd (downloadUpdate c env v dest fs).1 = prevNamesRaw dd fs := by
  rcases download_shape c env v dest fs with hs | ⟨fsm, hm, hs | ⟨content, hs⟩⟩
  · rw [hs]
  · rw [hs, prevNamesRaw_foldl_insert dd _ dest fsm hprev, mkdirOne_raw dd hm]
  · rw [hs, prevNamesRaw_insert_of_not_key dd _ _ _ (hprev c.binaryName),
      prevNamesRaw_foldl_insert dd _ dest fsm hprev, mkdirOne_raw dd hm]

theorem download_WF (c : Config) (env : Env) (v : String) (dest : Path) (fs : FS)
    (hWF : WFfs fs) : WFfs (downloadUpdate c env v dest fs).1 := by
  rcases download_shape c env v dest fs with hs | ⟨fsm, hm, hs | ⟨content, hs⟩⟩
  · rw [hs]; exact hWF
  · rw [hs]; exact WFfs_foldl_insert _ dest fsm (mkdirOne_WF hm hWF)
  · rw [hs]
    exact WFfs_insert _ _ _ (WFfs_foldl_insert _ dest fsm (mkdirOne_WF hm hWF))

theorem download_lookup (c : Config) (env : Env) (v : String) (dest : Path) (fs : FS)
    (q : Path) (hq1 : q ≠ dest) (hq2 : ∀ x, q ≠ dest ++ [x]) :
    lookupFS (downloadUpdate c env v dest fs).1 q = lookupFS fs q := by
  rcases download_shape c env v dest fs with hs | ⟨fsm, hm, hs | ⟨content, hs⟩⟩
  · rw [hs]
  · rw [hs, lookupFS_foldl_insert_ne _ dest fsm q hq2, mkdirOne_lookup_ne hm hq1]
  · rw [hs, lookupFS_insert_ne _ _ _ _ (hq2 c.binaryName),
      lookupFS_foldl_insert_ne _ dest fsm q hq2, mkdirOne_lookup_ne hm hq1]

/-! ### Disequalities between the supervisor's paths -/

theorem curKey_ne_dataDir (c : Config) : curKey c ≠ dataDir c :=
  append_singleton_ne (dataDir c) "current"

theorem curKey_ne_versionsKey (c : Config) : curKey c ≠ versionsKey c := by
  intro h
  exact absurd ((childKey_inj _ _ _ _).1 h).2 (by decide)

theorem curKey_ne_versionKey (c : Config) (v : String) : curKey c ≠ versionKey c v := by
  apply key_len_ne
  simp [curKey, versionKey]

theorem curKey_ne_versionChild (c : Config) (v x : String) :
    curKey c ≠ versionKey c v ++ [x] := by
  apply key_len_ne
  simp [curKey, versionKey]

theorem curKey_ne_legacyKey (c : Config) : curKey c ≠ legacyKey c := by
  apply key_len_ne
  simp [curKey, legacyKey]

theorem curKey_ne_legacyBin (c : Config) : curKey c ≠ legacyKey c ++ [c.binaryName] := by
  apply key_len_ne
  simp [curKey, legacyKey]

theorem curKey_ne_binPath (c : Config) (hA : c.binaryDir ≠ dataDir c) :
    curKey c ≠ binPath c := by
  intro h
  exact hA ((childKey_inj _ _ _ _).1 h).1.symm

theorem curKey_ne_tmpBin (c : Config) (n : Nat) (hA : c.binaryDir ≠ dataDir c) :
    curKey c ≠ tmpBinKey c n := by
  intro h
  exact hA ((childKey_inj _ _ _ _).1 h).1.symm

theorem curKey_ne_prevKey (c : Config) (ts : String) : curKey c ≠ prevKey c ts := by
  intro h
  exact (prevName_ne_current ts) ((childKey_inj _ _ _ _).1 h).2.symm

theorem curKey_ne_tmpCur (c : Config) (n : Nat) : curKey c ≠ tmpCurKey c n := by
  intro h
  exact (tmpCur_ne_current (Nat.repr n)) ((childKey_inj _ _ _ _).1 h).2.symm

theorem dataDir_ne_binPath (c : Config) (hB : c.binaryDir ≠ c.versionsDir) :
    dataDir c ≠ binPath c := by
  intro h
  exact hB ((childKey_inj _ _ _ _).1 h).1.symm

theorem dataDir_ne_tmpBin (c : Config) (n : Nat) (hB : c.binaryDir ≠ c.versionsDir) :
    dataDir c ≠ tmpBinKey c n := by
  intro h
  exact hB ((childKey_inj _ _ _ _).1 h).1.symm

theorem dataDir_ne_child (c : Config) (x : String) : dataDir c ≠ dataDir c ++ [x] :=
  (append_singleton_ne (dataDir c) x).symm

theorem dataDir_ne_versionKey (c : Config) (v : String) : dataDir c ≠ versionKey c v := by
  apply key_len_ne
  simp [versionKey]

theorem dataDir_ne_versionChild (c : Config) (v x : String) :
    dataDir c ≠ versionKey c v ++ [x] := by
  apply key_len_ne
  simp [versionKey]

theorem dataDir_ne_legacyKey (c : Config) : dataDir c ≠ legacyKey c := by
  apply key_len_ne
  simp [legacyKey]

theorem dataDir_ne_legacyBin (c : Config) : dataDir c ≠ legacyKey c ++ [c.binaryName] := by
  apply key_len_ne
  simp [legacyKey]

theorem isPrevKeyB_binChild (c : Config) (x : String) (hA : c.binaryDir ≠ dataDir c) :
    isPrevKeyB (dataDir c) (c.binaryDir ++ [x]) = false := by
  apply isPrevKeyB_false_of_parent
  rw [List.dropLast_concat]
  exact hA

theorem isPrevKeyB_legacyBin (c : Config) :
    isPrevKeyB (dataDir c) (legacyKey c ++ [c.binaryName]) = false := by
  apply isPrevKeyB_false_of_parent
  rw [List.dropLast_concat]
  exact (dataDir_ne_legacyKey c).symm

theorem isPrevKeyB_versionChild (c : Config) (v x : String) :
    isPrevKeyB (dataDir c) (versionKey c v ++ [x]) = false := by
  apply isPrevKeyB_false_of_parent
  rw [List.dropLast_concat]
  exact (dataDir_ne_versionKey c v).symm

theorem binPath_ne_versionsKey (c : Config) (hA : c.binaryDir ≠ dataDir c) :
    binPath c ≠ versionsKey c := by
  intro h
  exact hA ((childKey_inj _ _ _ _).1 h).1

theorem versionKey_split (c : Config) (v : String) :
    versionKey c v = versionsKey c ++ [v] := by
  simp [versionKey, versionsKey]

theorem binPath_ne_versionKey (c : Config) (v : String)
    (hC : c.binaryDir ≠ versionsKey c) : binPath c ≠ versionKey c v := by
  rw [versionKey_split]
  intro h
  exact hC ((childKey_inj _ _ _ _).1 h).1

theorem binPath_ne_versionChild (c : Config) (v x : String)
    (hD : c.binaryDir ≠ versionKey c v) : binPath c ≠ versionKey c v ++ [x] := by
  intro h
  exact hD ((childKey_inj _ _ _ _).1 h).1

theorem binPath_ne_prevKey (c : Config) (ts : String) (hA : c.binaryDir ≠ dataDir c) :
    binPath c ≠ prevKey c ts := by
  intro h
  exact hA ((childKey_inj _ _ _ _).1 h).1

theorem binPath_ne_tmpCur (c : Config) (n : Nat) (hA : c.binaryDir ≠ dataDir c) :
    binPath c ≠ tmpCurKey c n := by
  intro h
  exact hA ((childKey_inj _ _ _ _).1 h).1

/-! ### Effects of the bin-symlink update -/

theorem migrate_effects (c : Config) (clk : Clock) (fs : FS)
    (hA : c.binaryDir ≠ dataDir c) (hB : c.binaryDir ≠ c.versionsDir)
    (htsL : clk.tsLegacy.data ≠ []) (hWF : WFfs fs) :
    WFfs (migrateLegacyBinary c clk fs).1 ∧
    lookupFS (migrateLegacyBinary c clk fs).1 (curKey c) = lookupFS fs (curKey c) ∧
    (prevNames c (migrateLegacyBinary c clk fs).1 = prevNames c fs ∨
      prevNames c (migrateLegacyBinary c clk fs).1 =
        List.orderedInsert strRel ("previous-" ++ clk.tsLegacy) (prevNames c fs)) ∧
    (lookupFS fs (dataDir c) = some Node.dir →
      lookupFS (migrateLegacyBinary c clk fs).1 (dataDir c) = some Node.dir) := by
  rcases hm : mkdirAllFS fs [dataDir c, versionsKey c, legacyKey c] with e | fs1
  · have hres : migrateLegacyBinary c clk fs =
        (fs, some "failed to create legacy version directory") := by
      unfold migrateLegacyBinary
      rw [hm]
    rw [hres]
    exact ⟨hWF, rfl, Or.inl rfl, fun h => h⟩
  · have hWF1 := mkdirAll_WF _ fs fs1 hm hWF
    have hraw1 := mkdirAll_raw (dataDir c) _ fs fs1 hm
    have hcur1 : lookupFS fs1 (curKey c) = lookupFS fs (curKey c) := by
      apply mkdirAll_lookup_ne _ fs fs1 hm (curKey c)
      intro p hp
      simp only [List.mem_cons, List.not_mem_nil, or_false] at hp
      rcases hp with rfl | rfl | rfl
      · exact curKey_ne_dataDir c
      · exact curKey_ne_versionsKey c
      · exact curKey_ne_legacyKey c
    have hdir1 : lookupFS fs1 (dataDir c) = some Node.dir :=
      mkdirAll_dir_of_mem _ fs fs1 hm (dataDir c) (by simp)
    rcases hr : renameFS fs1 (binPath c) (legacyKey c ++ [c.binaryName]) with e | fs2
    · have hres : migrateLegacyBinary c clk fs = (fs1, some "failed to move legacy binary") := by
        unfold migrateLegacyBinary
        rw [hm]
        dsimp only
        rw [hr]
      rw [hres]
      exact ⟨hWF1, hcur1, Or.inl (prevNames_of_raw_eq hraw1), fun _ => hdir1⟩
    · obtain ⟨n0, hn0, rfl⟩ := renameFS_ok hr
      have hbinkey : isPrevKeyB (dataDir c) (binPath c) = false :=
        isPrevKeyB_binChild c c.binaryName hA
      have hWF2 : WFfs (insertFS (eraseFS fs1 (binPath c)) (legacyKey c ++ [c.binaryName]) n0) :=
        WFfs_insert _ _ _ (WFfs_erase _ _ hWF1)
      have hraw2 : prevNamesRaw (dataDir c)
          (insertFS (eraseFS fs1 (binPath c)) (legacyKey c ++ [c.binaryName]) n0) =
          prevNamesRaw (dataDir c) fs := by
        rw [prevNamesRaw_insert_of_not_key _ _ _ _ (isPrevKeyB_legacyBin c),
          prevNamesRaw_erase_of_not_key _ _ _ hbinkey, hraw1]
      have hcur2 : lookupFS
          (insertFS (eraseFS fs1 (binPath c)) (legacyKey c ++ [c.binaryName]) n0) (curKey c) =
          lookupFS fs (curKey c) := by
        rw [lookupFS_insert_ne _ _ _ _ (curKey_ne_legacyBin c),
          lookupFS_erase_ne _ _ _ (curKey_ne_binPath c hA), hcur1]
      have hdir2 : lookupFS
          (insertFS (eraseFS fs1 (binPath c)) (legacyKey c ++ [c.binaryName]) n0) (dataDir c) =
          some Node.dir := by
        rw [lookupFS_insert_ne _ _ _ _ (dataDir_ne_legacyBin c),
          lookupFS_erase_ne _ _ _ (dataDir_ne_binPath c hB)]
        exact hdir1
      rcases hs : symlinkFS (insertFS (eraseFS fs1 (binPath c))
          (legacyKey c ++ [c.binaryName]) n0) (legacyKey c) (prevKey c clk.tsLegacy) with e | fs3
      · have hres : migrateLegacyBinary c clk fs =
            (insertFS (eraseFS fs1 (binPath c)) (legacyKey c ++ [c.binaryName]) n0, none) := by
          unfold migrateLegacyBinary
          rw [hm]
          dsimp only
          rw [hr]
          dsimp only
          rw [hs]
        rw [hres]
        exact ⟨hWF2, hcur2, Or.inl (prevNames_of_raw_eq hraw2), fun _ => hdir2⟩
      · obtain ⟨hnone, rfl⟩ := symlinkFS_ok hs
        have hres : migrateLegacyBinary c clk fs =
            (insertFS (insertFS (eraseFS fs1 (binPath c)) (legacyKey c ++ [c.binaryName]) n0)
              (prevKey c clk.tsLegacy) (Node.symlink (legacyKey c)), none) := by
          unfold migrateLegacyBinary
          rw [hm]
          dsimp only
          rw [hr]
          dsimp only
          rw [hs]
        rw [hres]
        dsimp only
        refine ⟨WFfs_insert _ _ _ hWF2, ?_, ?_, fun _ => ?_⟩
        · rw [lookupFS_insert_ne _ _ _ _ (curKey_ne_prevKey c clk.tsLegacy)]
          exact hcur2
        · refine Or.inr ?_
          have hstep := prevNames_insert_prev c
            (insertFS (eraseFS fs1 (binPath c)) (legacyKey c ++ [c.binaryName]) n0)
            ("previous-" ++ clk.tsLegacy) (legacyKey c)
            (isPrevName_prevStr _ htsL) hnone
          rw [show prevKey c clk.tsLegacy =
              dataDir c ++ ["previous-" ++ clk.tsLegacy] from rfl, hstep,
            prevNames_of_raw_eq hraw2]
        · rw [show prevKey c clk.tsLegacy =
              dataDir c ++ ["previous-" ++ clk.tsLegacy] from rfl,
            lookupFS_insert_ne _ _ _ _ (dataDir_ne_child c ("previous-" ++ clk.tsLegacy))]
          exact hdir2

theorem binSwapTail_effects (c : Config) (clk : Clock) (fs1 : FS)
    (hA : c.binaryDir ≠ dataDir c) (hB : c.binaryDir ≠ c.versionsDir) (hWF1 : WFfs fs1) :
    WFfs (binSwapTail c clk fs1).1 ∧
    lookupFS (binSwapTail c clk fs1).1 (curKey c) = lookupFS fs1 (curKey c) ∧
    prevNames c (binSwapTail c clk fs1).1 = prevNames c fs1 ∧
    (lookupFS fs1 (dataDir c) = some Node.dir →
      lookupFS (binSwapTail c clk fs1).1 (dataDir c) = some Node.dir) := by
  have htmpkey : isPrevKeyB (dataDir c) (tmpBinKey c clk.nanoBin) = false :=
    isPrevKeyB_binChild c (c.binaryName ++ ".tmp." ++ Nat.repr clk.nanoBin) hA
  have hbinkey : isPrevKeyB (dataDir c) (binPath c) = false :=
    isPrevKeyB_binChild c c.binaryName hA
  rcases hsy : symlinkFS fs1 (curKey c ++ [c.binaryName]) (tmpBinKey c clk.nanoBin) with e | fs2
  · have hres : binSwapTail c clk fs1 = (fs1, some "failed to create temp bin symlink") := by
      unfold binSwapTail
      rw [hsy]
    rw [hres]
    exact ⟨hWF1, rfl, rfl, fun h => h⟩
  · obtain ⟨hnone, rfl⟩ := symlinkFS_ok hsy
    have hWF2 : WFfs (insertFS fs1 (tmpBinKey c clk.nanoBin)
        (Node.symlink (curKey c ++ [c.binaryName]))) := WFfs_insert _ _ _ hWF1
    rcases hr : renameFS (insertFS fs1 (tmpBinKey c clk.nanoBin)
        (Node.symlink (curKey c ++ [c.binaryName]))) (tmpBinKey c clk.nanoBin)
        (binPath c) with e | fs3
    · have hres : binSwapTail c clk fs1 =
          (eraseFS (insertFS fs1 (tmpBinKey c clk.nanoBin)
              (Node.symlink (curKey c ++ [c.binaryName]))) (tmpBinKey c clk.nanoBin),
            some "failed to swap bin symlink") := by
        unfold binSwapTail
        rw [hsy]
        dsimp only
        rw [hr]
      rw [hres]
      dsimp only
      refine ⟨WFfs_erase _ _ hWF2, ?_, ?_, fun h => ?_⟩
      · rw [lookupFS_erase_ne _ _ _ (curKey_ne_tmpBin c clk.nanoBin hA),
          lookupFS_insert_ne _ _ _ _ (curKey_ne_tmpBin c clk.nanoBin hA)]
      · apply prevNames_of_raw_eq
        rw [prevNamesRaw_erase_of_not_key _ _ _ htmpkey,
          prevNamesRaw_insert_of_not_key _ _ _ _ htmpkey]
      · rw [lookupFS_erase_ne _ _ _ (dataDir_ne_tmpBin c clk.nanoBin hB),
          lookupFS_insert_ne _ _ _ _ (dataDir_ne_tmpBin c clk.nanoBin hB)]
        exact h
    · obtain ⟨n1, hn1, rfl⟩ := renameFS_ok hr
      have hres : binSwapTail c clk fs1 =
          (insertFS (eraseFS (insertFS fs1 (tmpBinKey c clk.nanoBin)
              (Node.symlink (curKey c ++ [c.binaryName]))) (tmpBinKey c clk.nanoBin))
            (binPath c) n1, none) := by
        unfold binSwapTail
        rw [hsy]
        dsimp only
        rw [hr]
      rw [hres]
      dsimp only
      refine ⟨WFfs_insert _ _ _ (WFfs_erase _ _ hWF2), ?_, ?_, fun h => ?_⟩
      · rw [lookupFS_insert_ne _ _ _ _ (curKey_ne_binPath c hA),
          lookupFS_erase_ne _ _ _ (curKey_ne_tmpBin c clk.nanoBin hA),
          lookupFS_insert_ne _ _ _ _ (curKey_ne_tmpBin c clk.nanoBin hA)]
      · apply prevNames_of_raw_eq
        rw [prevNamesRaw_insert_of_not_key _ _ _ _ hbinkey,
          prevNamesRaw_erase_of_not_key _ _ _ htmpkey,
          prevNamesRaw_insert_of_not_key _ _ _ _ htmpkey]
      · rw [lookupFS_insert_ne _ _ _ _ (dataDir_ne_binPath c hB),
          lookupFS_erase_ne _ _ _ (dataDir_ne_tmpBin c clk.nanoBin hB),
          lookupFS_insert_ne _ _ _ _ (dataDir_ne_tmpBin c clk.nanoBin hB)]
        exact h

theorem updateBin_effects (c : Config) (clk : Clock) (fs : FS)
    (hA : c.binaryDir ≠ dataDir c) (hB : c.binaryDir ≠ c.versionsDir)
    (htsL : clk.tsLegacy.data ≠ []) (hWF : WFfs fs) :
    WFfs (updateBinSymlink c clk fs).1 ∧
    lookupFS (updateBinSymlink c clk fs).1 (curKey c) = lookupFS fs (curKey c) ∧
    (prevNames c (updateBinSymlink c clk fs).1 = prevNames c fs ∨
      prevNames c (updateBinSymlink c clk fs).1 =
        List.orderedInsert strRel ("previous-" ++ clk.tsLegacy) (prevNames c fs)) ∧
    (lookupFS fs (dataDir c) = some Node.dir →
      lookupFS (updateBinSymlink c clk fs).1 (dataDir c) = some Node.dir) := by
  rcases hst : statCurrentBinary c fs with _ | n0
  · have hres : updateBinSymlink c clk fs = (fs, some "current binary does not exist") := by
      unfold updateBinSymlink
      rw [hst]
    rw [hres]
    exact ⟨hWF, rfl, Or.inl rfl, fun h => h⟩
  · have hcomp : ∀ fs1 : FS, updateBinSymlink c clk fs = binSwapTail c clk fs1 →
        WFfs fs1 →
        lookupFS fs1 (curKey c) = lookupFS fs (curKey c) →
        (prevNames c fs1 = prevNames c fs ∨
          prevNames c fs1 =
            List.orderedInsert strRel ("previous-" ++ clk.tsLegacy) (prevNames c fs)) →
        (lookupFS fs (dataDir c) = some Node.dir →
          lookupFS fs1 (dataDir c) = some Node.dir) →
        WFfs (updateBinSymlink c clk fs).1 ∧
        lookupFS (updateBinSymlink c clk fs).1 (curKey c) = lookupFS fs (curKey c) ∧
        (prevNames c (updateBinSymlink c clk fs).1 = prevNames c fs ∨
          prevNames c (updateBinSymlink c clk fs).1 =
            List.orderedInsert strRel ("previous-" ++ clk.tsLegacy) (prevNames c fs)) ∧
        (lookupFS fs (dataDir c) = some Node.dir →
          lookupFS (updateBinSymlink c clk fs).1 (dataDir c) = some Node.dir) := by
      intro fs1 heq hWF1 hcur1 hprev1 hdir1
      obtain ⟨sWF, sCur, sPrev, sDir⟩ := binSwapTail_effects c clk fs1 hA hB hWF1
      rw [heq]
      refine ⟨sWF, by rw [sCur, hcur1], ?_, fun h => sDir (hdir1 h)⟩
      rw [sPrev]
      exact hprev1
    rcases hb : lookupFS fs (binPath c) with _ | nb
    · apply hcomp fs ?_ hWF rfl (Or.inl rfl) (fun h => h)
      unfold updateBinSymlink
      rw [hst]
      dsimp only
      rw [hb]
    · cases nb with
      | symlink t =>
        apply hcomp fs ?_ hWF rfl (Or.inl rfl) (fun h => h)
        unfold updateBinSymlink
        rw [hst]
        dsimp only
        rw [hb]
      | file mode content =>
        obtain ⟨hWFm, hcurm, hprevm, hdirm⟩ := migrate_effects c clk fs hA hB htsL hWF
        rcases hm2 : migrateLegacyBinary c clk fs with ⟨fs1, e1⟩
        rw [hm2] at hWFm hcurm hprevm hdirm
        cases e1 with
        | some e =>
          have hres : updateBinSymlink c clk fs = (fs1, some e) := by
            unfold updateBinSymlink
            rw [hst]
            dsimp only
            rw [hb]
            dsimp only
            rw [hm2]
          rw [hres]
          exact ⟨hWFm, hcurm, hprevm, hdirm⟩
        | none =>
          apply hcomp fs1 ?_ hWFm hcurm hprevm hdirm
          unfold updateBinSymlink
          rw [hst]
          dsimp only
          rw [hb]
          dsimp only
          rw [hm2]
      | dir =>
        obtain ⟨hWFm, hcurm, hprevm, hdirm⟩ := migrate_effects c clk fs hA hB htsL hWF
        rcases hm2 : migrateLegacyBinary c clk fs with ⟨fs1, e1⟩
        rw [hm2] at hWFm hcurm hprevm hdirm
        cases e1 with
        | some e =>
          have hres : updateBinSymlink c clk fs = (fs1, some e) := by
            unfold updateBinSymlink
            rw [hst]
            dsimp only
            rw [hb]
            dsimp only
            rw [hm2]
          rw [hres]
          exact ⟨hWFm, hcurm, hprevm, hdirm⟩
        | none =>
          apply hcomp fs1 ?_ hWFm hcurm hprevm hdirm
          unfold updateBinSymlink
          rw [hst]
          dsimp only
          rw [hb]
          dsimp only
          rw [hm2]

/-! ### The update pipeline, case by case -/

theorem swapTail_cases (c : Config) (env : Env) (clk : Clock) (v : String) (fs4 : FS)
    (hA : c.binaryDir ≠ dataDir c) (hB : c.binaryDir ≠ c.versionsDir)
    (htsL : clk.tsLegacy.data ≠ []) (hWF4 : WFfs fs4)
    (hdir4 : lookupFS fs4 (dataDir c) = some Node.dir) :
    updateSwapTail c env clk v fs4 = (fs4, some "failed to create temporary symlink") ∨
    (lookupFS (updateSwapTail c env clk v fs4).1 (curKey c) =
        some (Node.symlink (versionKey c v)) ∧
      WFfs (updateSwapTail c env clk v fs4).1 ∧
      ((updateSwapTail c env clk v fs4).2 = none →
        (prevNames c (updateSwapTail c env clk v fs4).1).length ≤ 3) ∧
      ((updateSwapTail c env clk v fs4).2 = none ∨
        (updateSwapTail c env clk v fs4).2 = some "failed to update bin symlink" ∨
        (updateSwapTail c env clk v fs4).2 = some "failed to send termination signal")) := by
  rcases hsy : symlinkFS fs4 (versionKey c v) (tmpCurKey c clk.unixN) with e | fs5
  · refine Or.inl ?_
    unfold updateSwapTail
    rw [hsy]
  · refine Or.inr ?_
    obtain ⟨hnone, rfl⟩ := symlinkFS_ok hsy
    have hWF5 : WFfs (insertFS fs4 (tmpCurKey c clk.unixN)
        (Node.symlink (versionKey c v))) := WFfs_insert _ _ _ hWF4
    have hdir5 : lookupFS (insertFS fs4 (tmpCurKey c clk.unixN)
        (Node.symlink (versionKey c v))) (dataDir c) = some Node.dir := by
      rw [show tmpCurKey c clk.unixN =
          dataDir c ++ ["current.tmp." ++ Nat.repr clk.unixN] from rfl,
        lookupFS_insert_ne _ _ _ _ (dataDir_ne_child c ("current.tmp." ++ Nat.repr clk.unixN))]
      exact hdir4
    rcases hrn : renameFS (insertFS fs4 (tmpCurKey c clk.unixN)
        (Node.symlink (versionKey c v))) (tmpCurKey c clk.unixN) (curKey c) with e | fs6
    · exfalso
      unfold renameFS at hrn
      rw [lookupFS_insert_self] at hrn
      simp at hrn
    · obtain ⟨n5, hn5, rfl⟩ := renameFS_ok hrn
      rw [lookupFS_insert_self] at hn5
      obtain rfl : Node.symlink (versionKey c v) = n5 := Option.some_inj.1 hn5
      have hcur6 : lookupFS (insertFS (eraseFS (insertFS fs4 (tmpCurKey c clk.unixN)
          (Node.symlink (versionKey c v))) (tmpCurKey c clk.unixN)) (curKey c)
          (Node.symlink (versionKey c v))) (curKey c) =
          some (Node.symlink (versionKey c v)) := lookupFS_insert_self _ _ _
      have hWF6 : WFfs (insertFS (eraseFS (insertFS fs4 (tmpCurKey c clk.unixN)
          (Node.symlink (versionKey c v))) (tmpCurKey c clk.unixN)) (curKey c)
          (Node.symlink (versionKey c v))) := WFfs_insert _ _ _ (WFfs_erase _ _ hWF5)
      have hdir6 : lookupFS (insertFS (eraseFS (insertFS fs4 (tmpCurKey c clk.unixN)
          (Node.symlink (versionKey c v))) (tmpCurKey c clk.unixN)) (curKey c)
          (Node.symlink (versionKey c v))) (dataDir c) = some Node.dir := by
        rw [show curKey c = dataDir c ++ ["current"] from rfl,
          lookupFS_insert_ne _ _ _ _ (dataDir_ne_child c "current"),
          lookupFS_erase_ne _ _ _ (by
            rw [show tmpCurKey c clk.unixN =
              dataDir c ++ ["current.tmp." ++ Nat.repr clk.unixN] from rfl]
            exact dataDir_ne_child c ("current.tmp." ++ Nat.repr clk.unixN))]
        exact hdir5
      obtain ⟨ubWF, ubCur, ubPrev, ubDir⟩ := updateBin_effects c clk
        (insertFS (eraseFS (insertFS fs4 (tmpCurKey c clk.unixN)
          (Node.symlink (versionKey c v))) (tmpCurKey c clk.unixN)) (curKey c)
          (Node.symlink (versionKey c v))) hA hB htsL hWF6
      rcases hub : updateBinSymlink c clk (insertFS (eraseFS (insertFS fs4
          (tmpCurKey c clk.unixN) (Node.symlink (versionKey c v))) (tmpCurKey c clk.unixN))
          (curKey c) (Node.symlink (versionKey c v))) with ⟨fs7, e7⟩
      rw [hub] at ubWF ubCur ubPrev ubDir
      have hdir7 : lookupFS fs7 (dataDir c) = some Node.dir := ubDir hdir6
      have hcur7 : lookupFS fs7 (curKey c) = some (Node.symlink (versionKey c v)) := by
        rw [ubCur, hcur6]
      cases e7 with
      | some e =>
        have hres : updateSwapTail c env clk v fs4 =
            (fs7, some "failed to update bin symlink") := by
          unfold updateSwapTail
          rw [hsy]
          dsimp only
          rw [hrn]
          dsimp only
          rw [hub]
        rw [hres]
        exact ⟨hcur7, ubWF, fun h => by simp at h, Or.inr (Or.inl rfl)⟩
      | none =>
        obtain ⟨clPrev, clErr, clWF⟩ := cleanup_core c fs7 3 ubWF hdir7
        have hcur8 : lookupFS (cleanupOldBackups c 3 fs7).1 (curKey c) =
            lookupFS fs7 (curKey c) := by
          apply cleanup_lookup c fs7 3 (curKey c) hdir7
          intro nm hnm hkey
          have : nm = "current" := ((childKey_inj _ _ _ _).1 hkey).2.symm
          rw [this, isPrevName_current] at hnm
          exact absurd hnm (by simp)
        have hlen : (prevNames c (cleanupOldBackups c 3 fs7).1).length ≤ 3 := by
          rw [clPrev, List.length_drop]
          omega
        have hres : updateSwapTail c env clk v fs4 =
            (if env.killOk then ((cleanupOldBackups c 3 fs7).1, none)
              else ((cleanupOldBackups c 3 fs7).1,
                some "failed to send termination signal")) := by
          unfold updateSwapTail
          rw [hsy]
          dsimp only
          rw [hrn]
          dsimp only
          rw [hub]
        rw [hres]
        rcases env.killOk with _ | _
        · rw [if_neg (by simp)]
          exact ⟨by rw [hcur8, hcur7], clWF, fun _ => hlen, Or.inr (Or.inr rfl)⟩
        · rw [if_pos rfl]
          exact ⟨by rw [hcur8, hcur7], clWF, fun _ => hlen, Or.inl rfl⟩

theorem update_cases (c : Config) (env : Env) (clk : Clock) (v : String) (fs : FS)
    (hA : c.binaryDir ≠ dataDir c) (hB : c.binaryDir ≠ c.versionsDir)
    (hC : c.binaryDir ≠ versionsKey c) (hD : c.binaryDir ≠ versionKey c v)
    (hts : clk.ts.data ≠ []) (htsL : clk.tsLegacy.data ≠ []) (hWF : WFfs fs) :
    ((update c env clk v fs).2.isSome = true ∧
      prevNames c (update c env clk v fs).1 = prevNames c fs ∧
      lookupFS (update c env clk v fs).1 (curKey c) = lookupFS fs (curKey c) ∧
      lookupFS (update c env clk v fs).1 (binPath c) = lookupFS fs (binPath c)) ∨
    ((update c env clk v fs).2 = some "failed to create temporary symlink" ∧
      prevNames c (update c env clk v fs).1 =
        List.orderedInsert strRel ("previous-" ++ clk.ts) (prevNames c fs) ∧
      lookupFS (update c env clk v fs).1 (curKey c) = lookupFS fs (curKey c) ∧
      lookupFS (update c env clk v fs).1 (binPath c) = lookupFS fs (binPath c)) ∨
    (lookupFS (update c env clk v fs).1 (curKey c) = some (Node.symlink (versionKey c v)) ∧
      WFfs (update c env clk v fs).1 ∧
      ((update c env clk v fs).2 = none →
        (prevNames c (update c env clk v fs).1).length ≤ 3) ∧
      ((update c env clk v fs).2 = none ∨
        (update c env clk v fs).2 = some "failed to update bin symlink" ∨
        (update c env clk v fs).2 = some "failed to send termination signal")) := by
  rcases h1 : mkdirAllFS fs [dataDir c, versionsKey c] with e | fs1
  · have hres : update c env clk v fs = (fs, some "failed to create versions directory") := by
      unfold update
      rw [h1]
    rw [hres]
    exact Or.inl ⟨rfl, rfl, rfl, rfl⟩
  · have hWF1 := mkdirAll_WF _ fs fs1 h1 hWF
    have hraw1 := mkdirAll_raw (dataDir c) _ fs fs1 h1
    have hcur1 : lookupFS fs1 (curKey c) = lookupFS fs (curKey c) := by
      apply mkdirAll_lookup_ne _ fs fs1 h1 (curKey c)
      intro p hp
      simp only [List.mem_cons, List.not_mem_nil, or_false] at hp
      rcases hp with rfl | rfl
      · exact curKey_ne_dataDir c
      · exact curKey_ne_versionsKey c
    have hbin1 : lookupFS fs1 (binPath c) = lookupFS fs (binPath c) := by
      apply mkdirAll_lookup_ne _ fs fs1 h1 (binPath c)
      intro p hp
      simp only [List.mem_cons, List.not_mem_nil, or_false] at hp
      rcases hp with rfl | rfl
      · exact (dataDir_ne_binPath c hB).symm
      · exact binPath_ne_versionsKey c hA
    rcases h2 : mkdirAllFS fs1 [dataDir c, versionsKey c, versionKey c v] with e | fs2
    · have hres : update c env clk v fs = (fs1, some "failed to create version directory") := by
        unfold update
        rw [h1]
        dsimp only
        rw [h2]
      rw [hres]
      exact Or.inl ⟨rfl, prevNames_of_raw_eq hraw1, hcur1, hbin1⟩
    · have hWF2 := mkdirAll_WF _ fs1 fs2 h2 hWF1
      have hraw2 : prevNamesRaw (dataDir c) fs2 = prevNamesRaw (dataDir c) fs := by
        rw [mkdirAll_raw (dataDir c) _ fs1 fs2 h2, hraw1]
      have hcur2 : lookupFS fs2 (curKey c) = lookupFS fs (curKey c) := by
        rw [← hcur1]
        apply mkdirAll_lookup_ne _ fs1 fs2 h2 (curKey c)
        intro p hp
        simp only [List.mem_cons, List.not_mem_nil, or_false] at hp
        rcases hp with rfl | rfl | rfl
        · exact curKey_ne_dataDir c
        · exact curKey_ne_versionsKey c
        · exact curKey_ne_versionKey c v
      have hbin2 : lookupFS fs2 (binPath c) = lookupFS fs (binPath c) := by
        rw [← hbin1]
        apply mkdirAll_lookup_ne _ fs1 fs2 h2 (binPath c)
        intro p hp
        simp only [List.mem_cons, List.not_mem_nil, or_false] at hp
        rcases hp with rfl | rfl | rfl
        · exact (dataDir_ne_binPath c hB).symm
        · exact binPath_ne_versionsKey c hA
        · exact binPath_ne_versionKey c v hC
      have hdir2 : lookupFS fs2 (dataDir c) = some Node.dir :=
        mkdirAll_dir_of_mem _ fs1 fs2 h2 (dataDir c) (by simp)
      have hdWF := download_WF c env v (versionKey c v) fs2 hWF2
      have hdraw : prevNamesRaw (dataDir c)
          (downloadUpdate c env v (versionKey c v) fs2).1 = prevNamesRaw (dataDir c) fs := by
        rw [download_raw c env v (versionKey c v) fs2 (dataDir c)
          (fun x => isPrevKeyB_versionChild c v x), hraw2]
      have hdcur : lookupFS (downloadUpdate c env v (versionKey c v) fs2).1 (curKey c) =
          lookupFS fs (curKey c) := by
        rw [download_lookup c env v (versionKey c v) fs2 (curKey c)
          (curKey_ne_versionKey c v) (fun x => curKey_ne_versionChild c v x), hcur2]
      have hddir : lookupFS (downloadUpdate c env v (versionKey c v) fs2).1 (dataDir c) =
          some Node.dir := by
        rw [download_lookup c env v (versionKey c v) fs2 (dataDir c)
          (dataDir_ne_versionKey c v) (fun x => dataDir_ne_versionChild c v x)]
        exact hdir2
      have hdbin : lookupFS (downloadUpdate c env v (versionKey c v) fs2).1 (binPath c) =
          lookupFS fs (binPath c) := by
        rw [download_lookup c env v (versionKey c v) fs2 (binPath c)
          (binPath_ne_versionKey c v hC) (fun x => binPath_ne_versionChild c v x hD), hbin2]
      rcases hd : downloadUpdate c env v (versionKey c v) fs2 with ⟨fs3, derr⟩
      rw [hd] at hdWF hdraw hdcur hddir hdbin
      cases derr with
      | some e =>
        have hres : update c env clk v fs = (fs3, some ("failed to download version " ++ v)) := by
          unfold update
          rw [h1]
          dsimp only
          rw [h2]
          dsimp only
          rw [hd]
        rw [hres]
        exact Or.inl ⟨rfl, prevNames_of_raw_eq hdraw, hdcur, hdbin⟩
      | none =>
        rcases hv : verifyBinary fs3 (versionKey c v ++ [c.binaryName]) with _ | e
        case some =>
          have hres : update c env clk v fs = (fs3, some "binary verification failed") := by
            unfold update
            rw [h1]
            dsimp only
            rw [h2]
            dsimp only
            rw [hd]
            dsimp only
            rw [hv]
          rw [hres]
          exact Or.inl ⟨rfl, prevNames_of_raw_eq hdraw, hdcur, hdbin⟩
        case none =>
          have hbackup : ∀ fs4 : FS, updateBackupStep c clk fs3 = .ok fs4 →
              WFfs fs4 ∧ lookupFS fs4 (curKey c) = lookupFS fs (curKey c) ∧
              lookupFS fs4 (dataDir c) = some Node.dir ∧
              lookupFS fs4 (binPath c) = lookupFS fs (binPath c) ∧
              (prevNames c fs4 = prevNames c fs ∨
                prevNames c fs4 =
                  List.orderedInsert strRel ("previous-" ++ clk.ts) (prevNames c fs)) := by
            intro fs4 hbk
            unfold updateBackupStep at hbk
            rcases hcl : lookupFS fs3 (curKey c) with _ | ncur
            · rw [hcl] at hbk
              have h4 : (Except.ok fs3 : Except String FS) = Except.ok fs4 := hbk
              obtain rfl := Except.ok.inj h4
              exact ⟨hdWF, hdcur, hddir, hdbin, Or.inl (prevNames_of_raw_eq hdraw)⟩
            · rw [hcl] at hbk
              rcases hrl : readlinkFS fs3 (curKey c) with e | target
              · rw [hrl] at hbk
                simp at hbk
              · rw [hrl] at hbk
                dsimp only at hbk
                rcases hsb : symlinkFS fs3 target (prevKey c clk.ts) with e | fs4x
                · rw [hsb] at hbk
                  simp at hbk
                · rw [hsb] at hbk
                  obtain ⟨hnone, rfl⟩ := symlinkFS_ok hsb
                  have h4 : (Except.ok (insertFS fs3 (prevKey c clk.ts)
                      (Node.symlink target)) : Except String FS) = Except.ok fs4 := hbk
                  obtain rfl := Except.ok.inj h4
                  refine ⟨WFfs_insert _ _ _ hdWF, ?_, ?_, ?_, Or.inr ?_⟩
                  · rw [lookupFS_insert_ne _ _ _ _ (curKey_ne_prevKey c clk.ts), hdcur]
                  · rw [show prevKey c clk.ts =
                      dataDir c ++ ["previous-" ++ clk.ts] from rfl,
                      lookupFS_insert_ne _ _ _ _ (dataDir_ne_child c ("previous-" ++ clk.ts))]
                    exact hddir
                  · rw [lookupFS_insert_ne _ _ _ _ (binPath_ne_prevKey c clk.ts hA), hdbin]
                  · have hstep := prevNames_insert_prev c fs3 ("previous-" ++ clk.ts) target
                      (isPrevName_prevStr _ hts) hnone
                    rw [show prevKey c clk.ts =
                      dataDir c ++ ["previous-" ++ clk.ts] from rfl, hstep,
                      prevNames_of_raw_eq hdraw]
          rcases hbk : updateBackupStep c clk fs3 with e | fs4
          · have hres : update c env clk v fs = (fs3, some e) := by
              unfold update
              rw [h1]
              dsimp only
              rw [h2]
              dsimp only
              rw [hd]
              dsimp only
              rw [hv]
              dsimp only
              rw [hbk]
            rw [hres]
            exact Or.inl ⟨rfl, prevNames_of_raw_eq hdraw, hdcur, hdbin⟩
          · obtain ⟨hWF4, hcur4, hdir4, hbin4, hprev4⟩ := hbackup fs4 hbk
            have hres : update c env clk v fs = updateSwapTail c env clk v fs4 := by
              unfold update
              rw [h1]
              dsimp only
              rw [h2]
              dsimp only
              rw [hd]
              dsimp only
              rw [hv]
              dsimp only
              rw [hbk]
            rw [hres]
            rcases swapTail_cases c env clk v fs4 hA hB htsL hWF4 hdir4 with hst | hst
            · rw [hst]
              rcases hprev4 with hp4 | hp4
              · exact Or.inl ⟨rfl, hp4, hcur4, hbin4⟩
              · exact Or.inr (Or.inl ⟨rfl, hp4, hcur4, hbin4⟩)
            · exact Or.inr (Or.inr hst)

/-! ### Verifier characterization and error-state helpers -/

theorem verifyBinary_ok_iff (fs : FS) (p : Path) :
    verifyBinary fs p = none ↔
      ∃ mode content, statFS fs 8 p = some (Node.file mode content) ∧
        0 < content.length ∧ mode &&& 0o111 ≠ 0 ∧ content.take 4 = elfMagic := by
  unfold verifyBinary
  rcases hst : statFS fs 8 p with _ | n
  · simp
  · cases n with
    | symlink t => simp
    | dir => simp
    | file mode content =>
      dsimp only
      by_cases h0 : content.length = 0
      · simp [h0]
      · rw [if_neg h0]
        by_cases h1 : mode &&& 0o111 = 0
        · simp [h1]
        · rw [if_neg h1]
          by_cases h2 : content.length < 4
          · have hm : content.take 4 ≠ elfMagic := by
              intro he
              have := congrArg List.length he
              rw [List.length_take] at this
              have : min 4 content.length = 4 := by rw [this]; rfl
              omega
            simp [h2, h0, h1, hm]
          · rw [if_neg h2]
            by_cases h3 : content.take 4 = elfMagic
            · rw [if_pos h3]
              constructor
              · intro _
                exact ⟨mode, content, rfl, by omega, h1, h3⟩
              · intro _
                rfl
            · simp [h3, h0, h1]

theorem update_error_state (c : Config) (env : Env) (clk : Clock) (v : String) (fs : FS)
    (hA : c.binaryDir ≠ dataDir c) (hB : c.binaryDir ≠ c.versionsDir)
    (hC : c.binaryDir ≠ versionsKey c) (hD : c.binaryDir ≠ versionKey c v)
    (hts : clk.ts.data ≠ []) (htsL : clk.tsLegacy.data ≠ []) (hWF : WFfs fs) (m : String)
    (herr : (update c env clk v fs).2 = some m)
    (hm1 : m ≠ "failed to create temporary symlink")
    (hm2 : m ≠ "failed to update bin symlink")
    (hm3 : m ≠ "failed to send termination signal") :
    prevNames c (update c env clk v fs).1 = prevNames c fs ∧
    lookupFS (update c env clk v fs).1 (curKey c) = lookupFS fs (curKey c) ∧
    lookupFS (update c env clk v fs).1 (binPath c) = lookupFS fs (binPath c) := by
  rcases update_cases c env clk v fs hA hB hC hD hts htsL hWF with
    ⟨_, hp, hc, hb⟩ | ⟨he, _, _, _⟩ | ⟨_, _, _, henum⟩
  · exact ⟨hp, hc, hb⟩
  · rw [herr] at he
    exact absurd (Option.some_inj.1 he) hm1
  · rcases henum with he | he | he
    · rw [herr] at he; simp at he
    · rw [herr] at he
      exact absurd (Option.some_inj.1 he) hm2
    · rw [herr] at he
      exact absurd (Option.some_inj.1 he) hm3

theorem rollback_pre_or_post (c : Config) (env : Env) (clk : Clock) (fs : FS) :
    ((rollback c env clk fs).1 = fs ∧ (rollback c env clk fs).2.isSome = true ∧
      ∀ m, (rollback c env clk fs).2 = some m →
        (m = "failed to find backup symlinks" ∨
         m = "no backup symlinks found, cannot rollback" ∨
         m = "failed to read backup symlink" ∨
         m = "backup version binary verification failed" ∨
         m = "failed to create temporary symlink")) ∨
    ((rollback c env clk fs).2 = none ∨
      (rollback c env clk fs).2 = some "failed to update bin symlink" ∨
      (rollback c env clk fs).2 = some "failed to send termination signal") := by
  rcases hg : getBackupSymlinks c fs with e | backups
  · have hres : rollback c env clk fs = (fs, some "failed to find backup symlinks") := by
      unfold rollback
      rw [hg]
    rw [hres]
    exact Or.inl ⟨rfl, rfl, fun m hm => Or.inl (Option.some_inj.1 hm).symm⟩
  · rcases hl : backups.getLast? with _ | latest
    · have hres : rollback c env clk fs =
          (fs, some "no backup symlinks found, cannot rollback") := by
        unfold rollback
        rw [hg]
        dsimp only
        rw [hl]
      rw [hres]
      exact Or.inl ⟨rfl, rfl, fun m hm => Or.inr (Or.inl (Option.some_inj.1 hm).symm)⟩
    · rcases hr : readlinkFS fs latest with e | target
      · have hres : rollback c env clk fs = (fs, some "failed to read backup symlink") := by
          unfold rollback
          rw [hg]
          dsimp only
          rw [hl]
          dsimp only
          rw [hr]
        rw [hres]
        exact Or.inl ⟨rfl, rfl, fun m hm => Or.inr (Or.inr (Or.inl (Option.some_inj.1 hm).symm))⟩
      · rcases hv : verifyBinary fs (target ++ [c.binaryName]) with _ | e
        case some =>
          have hres : rollback c env clk fs =
              (fs, some "backup version binary verification failed") := by
            unfold rollback
            rw [hg]
            dsimp only
            rw [hl]
            dsimp only
            rw [hr]
            dsimp only
            rw [hv]
          rw [hres]
          exact Or.inl ⟨rfl, rfl,
            fun m hm => Or.inr (Or.inr (Or.inr (Or.inl (Option.some_inj.1 hm).symm)))⟩
        case none =>
          rcases hsy : symlinkFS fs target (tmpCurKey c clk.nanoCur) with e | fs1
          · have hres : rollback c env clk fs =
                (fs, some "failed to create temporary symlink") := by
              unfold rollback
              rw [hg]
              dsimp only
              rw [hl]
              dsimp only
              rw [hr]
              dsimp only
              rw [hv]
              dsimp only
              rw [hsy]
            rw [hres]
            exact Or.inl ⟨rfl, rfl,
              fun m hm => Or.inr (Or.inr (Or.inr (Or.inr (Option.some_inj.1 hm).symm)))⟩
          · obtain ⟨hnone, rfl⟩ := symlinkFS_ok hsy
            rcases hrn : renameFS (insertFS fs (tmpCurKey c clk.nanoCur)
                (Node.symlink target)) (tmpCurKey c clk.nanoCur) (curKey c) with e | fs2
            · exfalso
              unfold renameFS at hrn
              rw [lookupFS_insert_self] at hrn
              simp at hrn
            · rcases hub : updateBinSymlink c clk fs2 with ⟨fs3, e3⟩
              cases e3 with
              | some e =>
                have hres : rollback c env clk fs =
                    (fs3, some "failed to update bin symlink") := by
                  unfold rollback
                  rw [hg]
                  dsimp only
                  rw [hl]
                  dsimp only
                  rw [hr]
                  dsimp only
                  rw [hv]
                  dsimp only
                  rw [hsy]
                  dsimp only
                  rw [hrn]
                  dsimp only
                  rw [hub]
                rw [hres]
                exact Or.inr (Or.inr (Or.inl rfl))
              | none =>
                have hres : rollback c env clk fs =
                    (if env.killOk then (eraseFS fs3 latest, none)
                      else (eraseFS fs3 latest, some "failed to send termination signal")) := by
                  unfold rollback
                  rw [hg]
                  dsimp only
                  rw [hl]
                  dsimp only
                  rw [hr]
                  dsimp only
                  rw [hv]
                  dsimp only
                  rw [hsy]
                  dsimp only
                  rw [hrn]
                  dsimp only
                  rw [hub]
                rw [hres]
                rcases env.killOk with _ | _
                · rw [if_neg (by simp)]
                  exact Or.inr (Or.inr (Or.inr rfl))
                · rw [if_pos rfl]
                  exact Or.inr (Or.inl rfl)

theorem rollback_no_backups (c : Config) (env : Env) (clk : Clock) (fs : FS)
    (hdir : lookupFS fs (dataDir c) = some Node.dir) (hempty : prevNames c fs = []) :
    rollback c env clk fs = (fs, some "no backup symlinks found, cannot rollback") := by
  unfold rollback
  rw [getBackupSymlinks_ok c fs hdir, hempty]
  rfl

/-! ## Claim theorems -/

/-- C9: for every timestamp the supervisor generates in the format
`YYYYMMDD-HHMMSS` (any valid wall-clock instant with a four-digit year),
parsing the resulting `previous-<ts>` link name back to a time and
reformatting that time yields the original string. -/
theorem c9_timestamp_roundtrip (t : DT) (h : validDT t = true) :
    parsePreviousTimestamp ("previous-" ++ formatTimestamp t) = t ∧
    formatTimestamp (parsePreviousTimestamp ("previous-" ++ formatTimestamp t)) =
      formatTimestamp t := by
  have hdata : ("previous-" ++ formatTimestamp t).data =
      prevPrefixChars ++ (formatTimestamp t).data := by
    rw [string_data_append]
    rfl
  have hne : (formatTimestamp t).data ≠ [] := by
    simp [formatTimestamp, pad4, pad2]
  have hprev : isPrevName ("previous-" ++ formatTimestamp t) = true :=
    isPrevName_prevStr (formatTimestamp t) hne
  have hdrop : ("previous-" ++ formatTimestamp t).data.drop 9 = (formatTimestamp t).data := by
    rw [hdata]
    have h9 : prevPrefixChars.length = 9 := rfl
    rw [← h9]
    exact List.drop_left prevPrefixChars (formatTimestamp t).data
  have hmk : String.mk (formatTimestamp t).data = formatTimestamp t := rfl
  have h1 : parsePreviousTimestamp ("previous-" ++ formatTimestamp t) = t := by
    unfold parsePreviousTimestamp
    rw [if_pos hprev, hdrop, hmk, parseTimestamp_format t h]
  exact ⟨h1, by rw [h1]⟩

/-- C9 witness at a concrete generated timestamp. -/
theorem c9_timestamp_roundtrip_witness :
    validDT ⟨2024, 2, 29, 23, 59, 59⟩ = true ∧
    parsePreviousTimestamp ("previous-" ++ formatTimestamp ⟨2024, 2, 29, 23, 59, 59⟩) =
        ⟨2024, 2, 29, 23, 59, 59⟩ ∧
    formatTimestamp (parsePreviousTimestamp
        ("previous-" ++ formatTimestamp ⟨2024, 2, 29, 23, 59, 59⟩)) =
      formatTimestamp ⟨2024, 2, 29, 23, 59, 59⟩ :=
  ⟨by decide, (c9_timestamp_roundtrip ⟨2024, 2, 29, 23, 59, 59⟩ (by decide)).1,
    (c9_timestamp_roundtrip ⟨2024, 2, 29, 23, 59, 59⟩ (by decide)).2⟩

/-- C1: evaluation of `CheckForUpdate` at the failing input.  With the
registry returning tags `["2.0.0", "1.0.0"]` (descending order) and a
compile-time version of `0.1.0`, `Client.Versions` keeps registry order
(no sort is applied even though `slices` is imported), so
`CheckForUpdate` reports `1.0.0` — the last listed tag — as latest and
as the update candidate, while the maximum by semver precedence over the
parseable tags is `2.0.0`.  This exhibits the divergence from the claim
that the reported latest is the semver maximum regardless of registry
order. -/
theorem c1_checkForUpdate_ignores_order :
    checkForUpdate ⟨0, 1, 0, []⟩ (Except.ok ["2.0.0", "1.0.0"]) =
      (some ⟨1, 0, 0, []⟩, [⟨2, 0, 0, []⟩, ⟨1, 0, 0, []⟩], none) ∧
    maxSemVer (versionsOf ["2.0.0", "1.0.0"]) = some ⟨2, 0, 0, []⟩ ∧
    gtSemVer ⟨2, 0, 0, []⟩ ⟨0, 1, 0, []⟩ = true ∧
    (⟨1, 0, 0, []⟩ : SemVer) ≠ ⟨2, 0, 0, []⟩ := by
  refine ⟨?_, ?_, ?_, ?_⟩ <;> decide

/-- C10: for every tag listing that succeeds but contains no
semver-parseable tag (including non-empty listings of unparsable tags),
`CheckForUpdate` returns the error `no versions found in repository`
together with a nil update candidate. -/
theorem c10_no_parseable_tags (cur : SemVer) (tags : List String)
    (h : versionsOf tags = []) :
    checkForUpdate cur (Except.ok tags) =
      (none, [], some "no versions found in repository") := by
  unfold checkForUpdate
  dsimp only
  rw [h]
  rfl

/-- C10 witness: a non-empty listing of only unparsable tags. -/
theorem c10_no_parseable_tags_witness :
    versionsOf ["latest", "main", "sha-deadbeef"] = [] ∧
    checkForUpdate ⟨1, 0, 0, []⟩ (Except.ok ["latest", "main", "sha-deadbeef"]) =
      (none, [], some "no versions found in repository") :=
  ⟨by decide, c10_no_parseable_tags ⟨1, 0, 0, []⟩ _ (by decide)⟩

/-- C2 counterexample: a failed `Update` that leaves an extra
`previous-*` link behind.  In `fsC2` the nonce-named temporary link
`current.tmp.5` already exists, so the staging of the atomic swap fails
with `failed to create temporary symlink` — but only after the backup
link `previous-20240103-120000` was created.  The pre-call set of
`previous-*` links was empty; afterwards it is not. -/
theorem c2_counterexample :
    (update cfgT envOk clkC2 "2.0.0" fsC2).2 = some "failed to create temporary symlink" ∧
    prevNames cfgT fsC2 = [] ∧
    prevNames cfgT (update cfgT envOk clkC2 "2.0.0" fsC2).1 = ["previous-20240103-120000"] := by
  refine ⟨?_, ?_, ?_⟩ <;> decide

/-- C2 (amended): a failed `Update` leaves the `previous-*` set and the
`current` link unchanged when it fails before the backup link is
created; when it fails between backup creation and the atomic rename it
leaves `current` (and `bin_path`) unchanged but adds exactly the one
backup link `previous-<ts>`; and when it fails after the atomic rename,
`current` already points at the new version directory. -/
theorem c2_update_failure (c : Config) (env : Env) (clk : Clock) (v : String) (fs : FS)
    (hA : c.binaryDir ≠ dataDir c) (hB : c.binaryDir ≠ c.versionsDir)
    (hC : c.binaryDir ≠ versionsKey c) (hD : c.binaryDir ≠ versionKey c v)
    (hts : clk.ts.data ≠ []) (htsL : clk.tsLegacy.data ≠ []) (hWF : WFfs fs)
    (e : String) (herr : (update c env clk v fs).2 = some e) :
    (prevNames c (update c env clk v fs).1 = prevNames c fs ∧
      lookupFS (update c env clk v fs).1 (curKey c) = lookupFS fs (curKey c) ∧
      lookupFS (update c env clk v fs).1 (binPath c) = lookupFS fs (binPath c)) ∨
    (prevNames c (update c env clk v fs).1 =
        List.orderedInsert strRel ("previous-" ++ clk.ts) (prevNames c fs) ∧
      lookupFS (update c env clk v fs).1 (curKey c) = lookupFS fs (curKey c) ∧
      lookupFS (update c env clk v fs).1 (binPath c) = lookupFS fs (binPath c)) ∨
    lookupFS (update c env clk v fs).1 (curKey c) = some (Node.symlink (versionKey c v)) := by
  rcases update_cases c env clk v fs hA hB hC hD hts htsL hWF with
    ⟨_, hp, hc, hb⟩ | ⟨_, hp, hc, hb⟩ | ⟨hc, _, _, _⟩
  · exact Or.inl ⟨hp, hc, hb⟩
  · exact Or.inr (Or.inl ⟨hp, hc, hb⟩)
  · exact Or.inr (Or.inr hc)

/-- C2 amended-theorem witness: a concrete failing update (the download
fails), discharging every hypothesis. -/
theorem c2_update_failure_witness :
    ((update cfgT ⟨fun _ => ([], some "boom"), true⟩ clkT1 "2.0.0" fsC2).2 =
      some ("failed to download version " ++ "2.0.0")) ∧
    ((prevNames cfgT (update cfgT ⟨fun _ => ([], some "boom"), true⟩ clkT1 "2.0.0" fsC2).1 =
        prevNames cfgT fsC2 ∧
      lookupFS (update cfgT ⟨fun _ => ([], some "boom"), true⟩ clkT1 "2.0.0" fsC2).1
          (curKey cfgT) = lookupFS fsC2 (curKey cfgT) ∧
      lookupFS (update cfgT ⟨fun _ => ([], some "boom"), true⟩ clkT1 "2.0.0" fsC2).1
          (binPath cfgT) = lookupFS fsC2 (binPath cfgT)) ∨
    (prevNames cfgT (update cfgT ⟨fun _ => ([], some "boom"), true⟩ clkT1 "2.0.0" fsC2).1 =
        List.orderedInsert strRel ("previous-" ++ clkT1.ts) (prevNames cfgT fsC2) ∧
      lookupFS (update cfgT ⟨fun _ => ([], some "boom"), true⟩ clkT1 "2.0.0" fsC2).1
          (curKey cfgT) = lookupFS fsC2 (curKey cfgT) ∧
      lookupFS (update cfgT ⟨fun _ => ([], some "boom"), true⟩ clkT1 "2.0.0" fsC2).1
          (binPath cfgT) = lookupFS fsC2 (binPath cfgT)) ∨
    lookupFS (update cfgT ⟨fun _ => ([], some "boom"), true⟩ clkT1 "2.0.0" fsC2).1
        (curKey cfgT) = some (Node.symlink (versionKey cfgT "2.0.0"))) :=
  ⟨by decide,
    c2_update_failure cfgT ⟨fun _ => ([], some "boom"), true⟩ clkT1 "2.0.0" fsC2
      (by decide) (by decide) (by decide) (by decide) (by decide) (by decide) (by decide)
      ("failed to download version " ++ "2.0.0") (by decide)⟩

/-- C5 counterexample: with `previous-20240104-120000` already present
(two installs within the same second), `Update` does not retry with a
nonce suffix: it fails with the backup-symlink error, leaving the
existing backup link and the `previous-*` set unchanged. -/
theorem c5_counterexample :
    (update cfgT envOk clkC5 "2.0.0" fsC5).2 = some "failed to create backup symlink" ∧
    prevNames cfgT (update cfgT envOk clkC5 "2.0.0" fsC5).1 = prevNames cfgT fsC5 ∧
    lookupFS (update cfgT envOk clkC5 "2.0.0" fsC5).1 (prevKey cfgT "20240104-120000") =
      some (Node.symlink ["lib", "app", "versions", "0.9.0"]) := by
  refine ⟨?_, ?_, ?_⟩ <;> decide

/-- C5 (amended): when the backup link name `previous-<timestamp>`
already exists, the backup step of `Update` fails with the
backup-symlink error — no `-<nonce>` suffix is tried — and an `Update`
failing with that error leaves the existing backup links (the
`previous-*` name set), `current`, and `bin_path` unchanged; the
existing link is never overwritten. -/
theorem c5_backup_collision :
    (∀ (c : Config) (clk : Clock) (fs3 : FS) (t : Path) (n0 : Node),
      lookupFS fs3 (curKey c) = some (Node.symlink t) →
      lookupFS fs3 (prevKey c clk.ts) = some n0 →
      updateBackupStep c clk fs3 = Except.error "failed to create backup symlink") ∧
    (∀ (c : Config) (env : Env) (clk : Clock) (v : String) (fs : FS),
      c.binaryDir ≠ dataDir c → c.binaryDir ≠ c.versionsDir →
      c.binaryDir ≠ versionsKey c → c.binaryDir ≠ versionKey c v →
      clk.ts.data ≠ [] → clk.tsLegacy.data ≠ [] → WFfs fs →
      (update c env clk v fs).2 = some "failed to create backup symlink" →
      prevNames c (update c env clk v fs).1 = prevNames c fs ∧
      lookupFS (update c env clk v fs).1 (curKey c) = lookupFS fs (curKey c) ∧
      lookupFS (update c env clk v fs).1 (binPath c) = lookupFS fs (binPath c)) := by
  constructor
  · intro c clk fs3 t n0 hcur hcol
    unfold updateBackupStep
    rw [hcur]
    dsimp only
    have hrl : readlinkFS fs3 (curKey c) = .ok t := by
      unfold readlinkFS
      rw [hcur]
    rw [hrl]
    dsimp only
    have hsl : symlinkFS fs3 t (prevKey c clk.ts) = .error "file exists" := by
      unfold symlinkFS
      rw [hcol]
    rw [hsl]
  · intro c env clk v fs hA hB hC hD hts htsL hWF herr
    exact update_error_state c env clk v fs hA hB hC hD hts htsL hWF _ herr
      (by decide) (by decide) (by decide)

/-- C5 witness: the collision state `fsC5`, discharging both parts at a
concrete input. -/
theorem c5_backup_collision_witness :
    updateBackupStep cfgT clkC5 fsC5 = Except.error "failed to create backup symlink" ∧
    (prevNames cfgT (update cfgT envOk clkC5 "2.0.0" fsC5).1 = prevNames cfgT fsC5 ∧
      lookupFS (update cfgT envOk clkC5 "2.0.0" fsC5).1 (curKey cfgT) =
        lookupFS fsC5 (curKey cfgT) ∧
      lookupFS (update cfgT envOk clkC5 "2.0.0" fsC5).1 (binPath cfgT) =
        lookupFS fsC5 (binPath cfgT)) :=
  ⟨c5_backup_collision.1 cfgT clkC5 fsC5 ["lib", "app", "versions", "1.0.0"]
      (Node.symlink ["lib", "app", "versions", "0.9.0"]) (by decide) (by decide),
    c5_backup_collision.2 cfgT envOk clkC5 "2.0.0" fsC5 (by decide) (by decide) (by decide)
      (by decide) (by decide) (by decide) (by decide) (by decide)⟩

/-- C3: after every successful Update, at most `KEEP = 3` `previous-*`
links exist under the data directory; and the rotation
(`cleanupOldBackups` with `keep = 3`) leaves exactly the suffix of the
ascending (byte-wise lexicographic) name list past `length - 3`, i.e.
the three lexicographically greatest — which, timestamps being
zero-padded, are the three most recently created. -/
theorem c3_backup_rotation :
    (∀ (c : Config) (env : Env) (clk : Clock) (v : String) (fs : FS),
      c.binaryDir ≠ dataDir c → c.binaryDir ≠ c.versionsDir →
      c.binaryDir ≠ versionsKey c → c.binaryDir ≠ versionKey c v →
      clk.ts.data ≠ [] → clk.tsLegacy.data ≠ [] → WFfs fs →
      (update c env clk v fs).2 = none →
      (prevNames c (update c env clk v fs).1).length ≤ 3) ∧
    (∀ (c : Config) (fs : FS), WFfs fs → lookupFS fs (dataDir c) = some Node.dir →
      prevNames c (cleanupOldBackups c 3 fs).1 =
        (prevNames c fs).drop ((prevNames c fs).length - 3)) := by
  constructor
  · intro c env clk v fs hA hB hC hD hts htsL hWF hok
    rcases update_cases c env clk v fs hA hB hC hD hts htsL hWF with
      ⟨h1, _, _, _⟩ | ⟨h1, _, _, _⟩ | ⟨_, _, h3, _⟩
    · rw [hok] at h1
      simp at h1
    · rw [hok] at h1
      simp at h1
    · exact h3 hok
  · intro c fs hWF hdir
    exact (cleanup_core c fs 3 hWF hdir).1

/-- C3 witness: a successful concrete update, and the rotation on a
state with five backups keeping exactly the three greatest names. -/
theorem c3_backup_rotation_witness :
    (prevNames cfgT (update cfgT envOk clkT1 "1.2.3" []).1).length ≤ 3 ∧
    prevNames cfgT (cleanupOldBackups cfgT 3 fsC3).1 =
      (prevNames cfgT fsC3).drop ((prevNames cfgT fsC3).length - 3) ∧
    prevNames cfgT (cleanupOldBackups cfgT 3 fsC3).1 =
      ["previous-20240101-000003", "previous-20240101-000004", "previous-20240101-000005"] :=
  ⟨c3_backup_rotation.1 cfgT envOk clkT1 "1.2.3" [] (by decide) (by decide) (by decide)
      (by decide) (by decide) (by decide) (by decide) (by decide),
    c3_backup_rotation.2 cfgT fsC3 (by decide) (by decide), by decide⟩

/-- C6: `verify(path)` succeeds exactly when the path resolves to a
regular file of size greater than zero with at least one execute bit
whose first four bytes are `0x7F 'E' 'L' 'F'` (the checks are made in
source order: stat, size, execute bits, header); and a verification
failure makes the calling `Update` (respectively `Rollback`) return
before `current` or `bin_path` is mutated. -/
theorem c6_verify :
    (∀ (fs : FS) (p : Path), verifyBinary fs p = none ↔
      ∃ mode content, statFS fs 8 p = some (Node.file mode content) ∧
        0 < content.length ∧ mode &&& 0o111 ≠ 0 ∧ content.take 4 = elfMagic) ∧
    (∀ (c : Config) (env : Env) (clk : Clock) (v : String) (fs : FS),
      c.binaryDir ≠ dataDir c → c.binaryDir ≠ c.versionsDir →
      c.binaryDir ≠ versionsKey c → c.binaryDir ≠ versionKey c v →
      clk.ts.data ≠ [] → clk.tsLegacy.data ≠ [] → WFfs fs →
      (update c env clk v fs).2 = some "binary verification failed" →
      lookupFS (update c env clk v fs).1 (curKey c) = lookupFS fs (curKey c) ∧
      lookupFS (update c env clk v fs).1 (binPath c) = lookupFS fs (binPath c) ∧
      prevNames c (update c env clk v fs).1 = prevNames c fs) ∧
    (∀ (c : Config) (env : Env) (clk : Clock) (fs : FS),
      (rollback c env clk fs).2 = some "backup version binary verification failed" →
      (rollback c env clk fs).1 = fs) := by
  refine ⟨verifyBinary_ok_iff, ?_, ?_⟩
  · intro c env clk v fs hA hB hC hD hts htsL hWF herr
    obtain ⟨hp, hc, hb⟩ := update_error_state c env clk v fs hA hB hC hD hts htsL hWF _ herr
      (by decide) (by decide) (by decide)
    exact ⟨hc, hb, hp⟩
  · intro c env clk fs herr
    rcases rollback_pre_or_post c env clk fs with ⟨h1, _, _⟩ | henum
    · exact h1
    · rcases henum with he | he | he
      · rw [herr] at he
        simp at he
      · rw [herr] at he
        exact absurd (Option.some_inj.1 he) (by decide)
      · rw [herr] at he
        exact absurd (Option.some_inj.1 he) (by decide)

/-- C6 witness: the characterization at a concrete file, a concrete
update failing verification (empty downloaded binary) leaving
`current`/`bin_path` untouched, and a concrete rollback refused by
verification leaving the state untouched. -/
theorem c6_verify_witness :
    (verifyBinary fsC2 (versionKey cfgT "1.0.0" ++ ["app"]) = none ↔
      ∃ mode content,
        statFS fsC2 8 (versionKey cfgT "1.0.0" ++ ["app"]) =
            some (Node.file mode content) ∧
          0 < content.length ∧ mode &&& 0o111 ≠ 0 ∧ content.take 4 = elfMagic) ∧
    ((update cfgT envBad clkT1 "9.9.9" []).2 = some "binary verification failed") ∧
    (lookupFS (update cfgT envBad clkT1 "9.9.9" []).1 (curKey cfgT) =
        lookupFS ([] : FS) (curKey cfgT) ∧
      lookupFS (update cfgT envBad clkT1 "9.9.9" []).1 (binPath cfgT) =
        lookupFS ([] : FS) (binPath cfgT) ∧
      prevNames cfgT (update cfgT envBad clkT1 "9.9.9" []).1 = prevNames cfgT ([] : FS)) ∧
    ((rollback cfgT envOk clkT1 fsRB).2 =
      some "backup version binary verification failed") ∧
    (rollback cfgT envOk clkT1 fsRB).1 = fsRB :=
  ⟨c6_verify.1 fsC2 (versionKey cfgT "1.0.0" ++ ["app"]), by decide,
    c6_verify.2.1 cfgT envBad clkT1 "9.9.9" [] (by decide) (by decide) (by decide) (by decide)
      (by decide) (by decide) (by decide) (by decide),
    by decide,
    c6_verify.2.2 cfgT envOk clkT1 fsRB (by decide)⟩

theorem binPath_ne_legacyKey (c : Config) (hC : c.binaryDir ≠ versionsKey c) :
    binPath c ≠ legacyKey c := binPath_ne_versionKey c "legacy" hC

theorem binPath_ne_legacyBin (c : Config) (hE : c.binaryDir ≠ legacyKey c) :
    binPath c ≠ legacyKey c ++ [c.binaryName] := by
  intro h
  exact hE ((childKey_inj _ _ _ _).1 h).1

theorem tmpBin_ne_legacyKey (c : Config) (n : Nat) (hC : c.binaryDir ≠ versionsKey c) :
    tmpBinKey c n ≠ legacyKey c := by
  rw [show legacyKey c = versionsKey c ++ ["legacy"] from versionKey_split c "legacy"]
  intro h
  exact hC ((childKey_inj _ _ _ _).1 h).1

theorem tmpBin_ne_legacyBin (c : Config) (n : Nat) (hE : c.binaryDir ≠ legacyKey c) :
    tmpBinKey c n ≠ legacyKey c ++ [c.binaryName] := by
  intro h
  exact hE ((childKey_inj _ _ _ _).1 h).1

theorem tmpBin_ne_prevKey (c : Config) (n : Nat) (ts : String)
    (hA : c.binaryDir ≠ dataDir c) : tmpBinKey c n ≠ prevKey c ts := by
  intro h
  exact hA ((childKey_inj _ _ _ _).1 h).1

theorem tmpName_ne_bin (bn r : String) : (bn ++ ".tmp." ++ r) ≠ bn := by
  apply str_len_ne
  have h5 : (".tmp." : String).data.length = 5 := rfl
  rw [string_data_append, string_data_append, List.length_append, List.length_append, h5]
  omega

theorem tmpBin_ne_binPath (c : Config) (n : Nat) : tmpBinKey c n ≠ binPath c := by
  intro h
  exact tmpName_ne_bin c.binaryName (Nat.repr n) ((childKey_inj _ _ _ _).1 h).2

theorem prevKey_ne_legacyKey (c : Config) (ts : String) : prevKey c ts ≠ legacyKey c := by
  apply key_len_ne
  simp [prevKey, legacyKey]

theorem prevKey_ne_legacyBin (c : Config) (ts : String) :
    prevKey c ts ≠ legacyKey c ++ [c.binaryName] := by
  apply key_len_ne
  simp [prevKey, legacyKey]

theorem migrate_success (c : Config) (clk : Clock) (fs : FS) (nb : Node)
    (hA : c.binaryDir ≠ dataDir c) (hC : c.binaryDir ≠ versionsKey c)
    (hE : c.binaryDir ≠ legacyKey c)
    (hbin : lookupFS fs (binPath c) = some nb)
    (hdd : lookupFS fs (dataDir c) = some Node.dir)
    (hvk : lookupFS fs (versionsKey c) = some Node.dir)
    (hlk : lookupFS fs (legacyKey c) = none)
    (htmp : lookupFS fs (tmpBinKey c clk.nanoBin) = none) :
    (migrateLegacyBinary c clk fs).2 = none ∧
    lookupFS (migrateLegacyBinary c clk fs).1 (legacyKey c ++ [c.binaryName]) = some nb ∧
    lookupFS (migrateLegacyBinary c clk fs).1 (legacyKey c) = some Node.dir ∧
    lookupFS (migrateLegacyBinary c clk fs).1 (tmpBinKey c clk.nanoBin) = none ∧
    (lookupFS fs (prevKey c clk.tsLegacy) = none →
      lookupFS (migrateLegacyBinary c clk fs).1 (prevKey c clk.tsLegacy) =
        some (Node.symlink (legacyKey c))) := by
  have h1 : mkdirOneFS fs (dataDir c) = .ok fs := by
    unfold mkdirOneFS
    rw [hdd]
  have h2 : mkdirOneFS fs (versionsKey c) = .ok fs := by
    unfold mkdirOneFS
    rw [hvk]
  have h3 : mkdirOneFS fs (legacyKey c) = .ok (insertFS fs (legacyKey c) Node.dir) := by
    unfold mkdirOneFS
    rw [hlk]
  have hmk : mkdirAllFS fs [dataDir c, versionsKey c, legacyKey c] =
      .ok (insertFS fs (legacyKey c) Node.dir) := by
    simp only [mkdirAllFS]
    rw [h1]
    dsimp only
    rw [h2]
    dsimp only
    rw [h3]
  have hbp1 : lookupFS (insertFS fs (legacyKey c) Node.dir) (binPath c) = some nb := by
    rw [lookupFS_insert_ne _ _ _ _ (binPath_ne_legacyKey c hC)]
    exact hbin
  have hren : renameFS (insertFS fs (legacyKey c) Node.dir) (binPath c)
      (legacyKey c ++ [c.binaryName]) =
      .ok (insertFS (eraseFS (insertFS fs (legacyKey c) Node.dir) (binPath c))
        (legacyKey c ++ [c.binaryName]) nb) := by
    unfold renameFS
    rw [hbp1]
  have hprev2 : lookupFS (insertFS (eraseFS (insertFS fs (legacyKey c) Node.dir)
        (binPath c)) (legacyKey c ++ [c.binaryName]) nb) (prevKey c clk.tsLegacy) =
      lookupFS fs (prevKey c clk.tsLegacy) := by
    rw [lookupFS_insert_ne _ _ _ _ (prevKey_ne_legacyBin c clk.tsLegacy),
      lookupFS_erase_ne _ _ _ (Ne.symm (binPath_ne_prevKey c clk.tsLegacy hA)),
      lookupFS_insert_ne _ _ _ _ (prevKey_ne_legacyKey c clk.tsLegacy)]
  rcases hpl : lookupFS fs (prevKey c clk.tsLegacy) with _ | n0
  · have hsy : symlinkFS (insertFS (eraseFS (insertFS fs (legacyKey c) Node.dir)
          (binPath c)) (legacyKey c ++ [c.binaryName]) nb) (legacyKey c)
          (prevKey c clk.tsLegacy) =
        .ok (insertFS (insertFS (eraseFS (insertFS fs (legacyKey c) Node.dir)
            (binPath c)) (legacyKey c ++ [c.binaryName]) nb)
          (prevKey c clk.tsLegacy) (Node.symlink (legacyKey c))) := by
      unfold symlinkFS
      rw [hprev2, hpl]
    have hres : migrateLegacyBinary c clk fs =
        (insertFS (insertFS (eraseFS (insertFS fs (legacyKey c) Node.dir)
            (binPath c)) (legacyKey c ++ [c.binaryName]) nb)
          (prevKey c clk.tsLegacy) (Node.symlink (legacyKey c)), none) := by
      unfold migrateLegacyBinary
      rw [hmk]
      dsimp only
      rw [hren]
      dsimp only
      rw [hsy]
    rw [hres]
    dsimp only
    refine ⟨rfl, ?_, ?_, ?_, fun _ => ?_⟩
    · rw [lookupFS_insert_ne _ _ _ _ (Ne.symm (prevKey_ne_legacyBin c clk.tsLegacy)),
        lookupFS_insert_self]
    · rw [lookupFS_insert_ne _ _ _ _ (Ne.symm (prevKey_ne_legacyKey c clk.tsLegacy)),
        lookupFS_insert_ne _ _ _ _ (Ne.symm (append_singleton_ne (legacyKey c) c.binaryName)),
        lookupFS_erase_ne _ _ _ (Ne.symm (binPath_ne_legacyKey c hC)),
        lookupFS_insert_self]
    · rw [lookupFS_insert_ne _ _ _ _ (tmpBin_ne_prevKey c clk.nanoBin clk.tsLegacy hA),
        lookupFS_insert_ne _ _ _ _ (tmpBin_ne_legacyBin c clk.nanoBin hE),
        lookupFS_erase_ne _ _ _ (tmpBin_ne_binPath c clk.nanoBin),
        lookupFS_insert_ne _ _ _ _ (tmpBin_ne_legacyKey c clk.nanoBin hC)]
      exact htmp
    · exact lookupFS_insert_self _ _ _
  · have hsy : symlinkFS (insertFS (eraseFS (insertFS fs (legacyKey c) Node.dir)
          (binPath c)) (legacyKey c ++ [c.binaryName]) nb) (legacyKey c)
          (prevKey c clk.tsLegacy) = .error "file exists" := by
      unfold symlinkFS
      rw [hprev2, hpl]
    have hres : migrateLegacyBinary c clk fs =
        (insertFS (eraseFS (insertFS fs (legacyKey c) Node.dir)
          (binPath c)) (legacyKey c ++ [c.binaryName]) nb, none) := by
      unfold migrateLegacyBinary
      rw [hmk]
      dsimp only
      rw [hren]
      dsimp only
      rw [hsy]
    rw [hres]
    dsimp only
    refine ⟨rfl, ?_, ?_, ?_, fun hp => ?_⟩
    · exact lookupFS_insert_self _ _ _
    · rw [lookupFS_insert_ne _ _ _ _ (Ne.symm (append_singleton_ne (legacyKey c) c.binaryName)),
        lookupFS_erase_ne _ _ _ (Ne.symm (binPath_ne_legacyKey c hC)),
        lookupFS_insert_self]
    · rw [lookupFS_insert_ne _ _ _ _ (tmpBin_ne_legacyBin c clk.nanoBin hE),
        lookupFS_erase_ne _ _ _ (tmpBin_ne_binPath c clk.nanoBin),
        lookupFS_insert_ne _ _ _ _ (tmpBin_ne_legacyKey c clk.nanoBin hC)]
      exact htmp
    · exact Option.noConfusion hp

theorem binSwap_success (c : Config) (clk : Clock) (fs1 : FS)
    (htmp1 : lookupFS fs1 (tmpBinKey c clk.nanoBin) = none) :
    binSwapTail c clk fs1 =
      (insertFS (eraseFS (insertFS fs1 (tmpBinKey c clk.nanoBin)
          (Node.symlink (curKey c ++ [c.binaryName]))) (tmpBinKey c clk.nanoBin))
        (binPath c) (Node.symlink (curKey c ++ [c.binaryName])), none) := by
  have hsy : symlinkFS fs1 (curKey c ++ [c.binaryName]) (tmpBinKey c clk.nanoBin) =
      .ok (insertFS fs1 (tmpBinKey c clk.nanoBin)
        (Node.symlink (curKey c ++ [c.binaryName]))) := by
    unfold symlinkFS
    rw [htmp1]
  have hr : renameFS (insertFS fs1 (tmpBinKey c clk.nanoBin)
        (Node.symlink (curKey c ++ [c.binaryName]))) (tmpBinKey c clk.nanoBin) (binPath c) =
      .ok (insertFS (eraseFS (insertFS fs1 (tmpBinKey c clk.nanoBin)
          (Node.symlink (curKey c ++ [c.binaryName]))) (tmpBinKey c clk.nanoBin))
        (binPath c) (Node.symlink (curKey c ++ [c.binaryName]))) := by
    unfold renameFS
    rw [lookupFS_insert_self]
  unfold binSwapTail
  rw [hsy]
  dsimp only
  rw [hr]

/-- C7: `updateBinSymlink` on a legacy installation (the current binary
exists and `bin_path` holds a non-symlink node): it creates
`versions/legacy/`, moves the `bin_path` node to
`versions/legacy/<binary_name>`, best-effort adds a
`previous-<timestamp>` link to `versions/legacy` (created whenever the
name is free; a collision is not fatal), and replaces `bin_path` by a
symlink to `<dataDir>/current/<binary_name>` installed via the
temporary name and a rename, succeeding overall. -/
theorem c7_legacy_migration (c : Config) (clk : Clock) (fs : FS) (n0 nb : Node)
    (hA : c.binaryDir ≠ dataDir c) (hC : c.binaryDir ≠ versionsKey c)
    (hE : c.binaryDir ≠ legacyKey c)
    (hst : statCurrentBinary c fs = some n0)
    (hbin : lookupFS fs (binPath c) = some nb)
    (hnsym : ∀ t, nb ≠ Node.symlink t)
    (hdd : lookupFS fs (dataDir c) = some Node.dir)
    (hvk : lookupFS fs (versionsKey c) = some Node.dir)
    (hlk : lookupFS fs (legacyKey c) = none)
    (htmp : lookupFS fs (tmpBinKey c clk.nanoBin) = none) :
    (updateBinSymlink c clk fs).2 = none ∧
    lookupFS (updateBinSymlink c clk fs).1 (legacyKey c) = some Node.dir ∧
    lookupFS (updateBinSymlink c clk fs).1 (legacyKey c ++ [c.binaryName]) = some nb ∧
    lookupFS (updateBinSymlink c clk fs).1 (binPath c) =
      some (Node.symlink (curKey c ++ [c.binaryName])) ∧
    (lookupFS fs (prevKey c clk.tsLegacy) = none →
      lookupFS (updateBinSymlink c clk fs).1 (prevKey c clk.tsLegacy) =
        some (Node.symlink (legacyKey c))) := by
  obtain ⟨hm0, hmLB, hmLK, hmT, hmP⟩ :=
    migrate_success c clk fs nb hA hC hE hbin hdd hvk hlk htmp
  rcases hm2 : migrateLegacyBinary c clk fs with ⟨fsM, e⟩
  rw [hm2] at hm0 hmLB hmLK hmT hmP
  dsimp only at hm0 hmLB hmLK hmT hmP
  subst hm0
  have htail : updateBinSymlink c clk fs = binSwapTail c clk fsM →
      (updateBinSymlink c clk fs).2 = none ∧
      lookupFS (updateBinSymlink c clk fs).1 (legacyKey c) = some Node.dir ∧
      lookupFS (updateBinSymlink c clk fs).1 (legacyKey c ++ [c.binaryName]) = some nb ∧
      lookupFS (updateBinSymlink c clk fs).1 (binPath c) =
        some (Node.symlink (curKey c ++ [c.binaryName])) ∧
      (lookupFS fs (prevKey c clk.tsLegacy) = none →
        lookupFS (updateBinSymlink c clk fs).1 (prevKey c clk.tsLegacy) =
          some (Node.symlink (legacyKey c))) := by
    intro heq
    rw [heq, binSwap_success c clk fsM hmT]
    dsimp only
    refine ⟨rfl, ?_, ?_, ?_, fun hp => ?_⟩
    · rw [lookupFS_insert_ne _ _ _ _ (Ne.symm (binPath_ne_legacyKey c hC)),
        lookupFS_erase_ne _ _ _ (Ne.symm (tmpBin_ne_legacyKey c clk.nanoBin hC)),
        lookupFS_insert_ne _ _ _ _ (Ne.symm (tmpBin_ne_legacyKey c clk.nanoBin hC))]
      exact hmLK
    · rw [lookupFS_insert_ne _ _ _ _ (Ne.symm (binPath_ne_legacyBin c hE)),
        lookupFS_erase_ne _ _ _ (Ne.symm (tmpBin_ne_legacyBin c clk.nanoBin hE)),
        lookupFS_insert_ne _ _ _ _ (Ne.symm (tmpBin_ne_legacyBin c clk.nanoBin hE))]
      exact hmLB
    · exact lookupFS_insert_self _ _ _
    · rw [lookupFS_insert_ne _ _ _ _ (Ne.symm (binPath_ne_prevKey c clk.tsLegacy hA)),
        lookupFS_erase_ne _ _ _
          (Ne.symm (tmpBin_ne_prevKey c clk.nanoBin clk.tsLegacy hA)),
        lookupFS_insert_ne _ _ _ _
          (Ne.symm (tmpBin_ne_prevKey c clk.nanoBin clk.tsLegacy hA))]
      exact hmP hp
  cases nb with
  | symlink t => exact absurd rfl (hnsym t)
  | file m co =>
    apply htail
    unfold updateBinSymlink
    rw [hst]
    dsimp only
    rw [hbin]
    dsimp only
    rw [hm2]
  | dir =>
    apply htail
    unfold updateBinSymlink
    rw [hst]
    dsimp only
    rw [hbin]
    dsimp only
    rw [hm2]

/-- C7 witness: the legacy state `fsC7`, where the regular file
`bin/app` is migrated to `versions/legacy/app`, the backup link is
created, and `bin/app` becomes the symlink. -/
theorem c7_legacy_migration_witness :
    (updateBinSymlink cfgT clkT1 fsC7).2 = none ∧
    lookupFS (updateBinSymlink cfgT clkT1 fsC7).1 (legacyKey cfgT) = some Node.dir ∧
    lookupFS (updateBinSymlink cfgT clkT1 fsC7).1 (legacyKey cfgT ++ ["app"]) =
      some (Node.file 0o755 elfBytes) ∧
    lookupFS (updateBinSymlink cfgT clkT1 fsC7).1 (binPath cfgT) =
      some (Node.symlink (curKey cfgT ++ ["app"])) ∧
    lookupFS (updateBinSymlink cfgT clkT1 fsC7).1 (prevKey cfgT clkT1.tsLegacy) =
      some (Node.symlink (legacyKey cfgT)) := by
  obtain ⟨w1, w2, w3, w4, w5⟩ := c7_legacy_migration cfgT clkT1 fsC7
    (Node.file 0o755 elfBytes) (Node.file 0o755 elfBytes) (by decide) (by decide) (by decide)
    (by decide) (by decide) (fun t h => Node.noConfusion h) (by decide) (by decide) (by decide)
    (by decide)
  exact ⟨w1, w2, w3, w4, w5 (by decide)⟩

theorem histRec_eq (fs : FS) (b : Path) (h : HistoricVersion) :
    histRec fs b = some h ↔
    ∃ target, readlinkFS fs b = Except.ok target ∧
      ((∃ ver, parseSemVer (baseName target) = some ver ∧
          h = ⟨ver, parsePreviousTimestamp (baseName b)⟩) ∨
        (parseSemVer (baseName target) = none ∧ baseName target = "legacy" ∧
          h = ⟨legacySentinel, parsePreviousTimestamp (baseName b)⟩)) := by
  unfold histRec
  rcases hr : readlinkFS fs b with e | target
  · dsimp only
    constructor
    · intro hx
      exact Option.noConfusion hx
    · rintro ⟨t, ht, _⟩
      exact Except.noConfusion ht
  · dsimp only
    rcases hp : parseSemVer (baseName target) with _ | ver
    · dsimp only
      by_cases hl : baseName target = "legacy"
      · rw [if_pos hl]
        constructor
        · intro hx
          exact ⟨target, rfl, Or.inr ⟨hp, hl, (Option.some_inj.1 hx).symm⟩⟩
        · rintro ⟨t, ht, hc⟩
          obtain rfl : target = t := Except.ok.inj ht
          rcases hc with ⟨ver, hver, _⟩ | ⟨_, _, hh⟩
          · rw [hp] at hver
            exact Option.noConfusion hver
          · rw [hh]
      · rw [if_neg hl]
        constructor
        · intro hx
          exact Option.noConfusion hx
        · rintro ⟨t, ht, hc⟩
          obtain rfl : target = t := Except.ok.inj ht
          rcases hc with ⟨ver, hver, _⟩ | ⟨_, hleg, _⟩
          · rw [hp] at hver
            exact Option.noConfusion hver
          · exact absurd hleg hl
    · dsimp only
      constructor
      · intro hx
        exact ⟨target, rfl, Or.inl ⟨ver, hp, (Option.some_inj.1 hx).symm⟩⟩
      · rintro ⟨t, ht, hc⟩
        obtain rfl : target = t := Except.ok.inj ht
        rcases hc with ⟨v2, hv2, hh⟩ | ⟨hnone, _, _⟩
        · rw [hp] at hv2
          obtain rfl : ver = v2 := Option.some_inj.1 hv2
          rw [hh]
        · rw [hp] at hnone
          exact Option.noConfusion hnone

/-- C8 counterexample: in `fsC8` the single backup link is resolvable
(`readlink` succeeds, target `versions/garbage`), yet `History` returns
no record for it at all — the unparsable, non-`legacy` basename is
silently skipped, not reported. -/
theorem c8_counterexample :
    getBackupSymlinks cfgT fsC8 =
      Except.ok [["lib", "app", "previous-20240105-120000"]] ∧
    readlinkFS fsC8 ["lib", "app", "previous-20240105-120000"] =
      Except.ok ["lib", "app", "versions", "garbage"] ∧
    history cfgT fsC8 = [] := by
  refine ⟨rfl, rfl, ?_⟩
  decide

/-- C8 (amended): `History` never fails hard — a directory-scan error
yields the empty list; otherwise the result is sorted descending by
`last_installed`, and it holds exactly the records of the resolvable
`previous-*` links whose target basename parses as semver or equals
`legacy` (mapped to the `0.0.0-legacy` sentinel); resolvable links with
any other unparsable basename yield no record. -/
theorem c8_history :
    (∀ (c : Config) (fs : FS) (e : String),
      getBackupSymlinks c fs = Except.error e → history c fs = []) ∧
    (∀ (c : Config) (fs : FS), (history c fs).Sorted histRel) ∧
    (∀ (c : Config) (fs : FS) (backups : List Path) (h : HistoricVersion),
      getBackupSymlinks c fs = Except.ok backups →
      (h ∈ history c fs ↔ ∃ b, b ∈ backups ∧ ∃ target,
        readlinkFS fs b = Except.ok target ∧
        ((∃ ver, parseSemVer (baseName target) = some ver ∧
            h = ⟨ver, parsePreviousTimestamp (baseName b)⟩) ∨
          (parseSemVer (baseName target) = none ∧ baseName target = "legacy" ∧
            h = ⟨legacySentinel, parsePreviousTimestamp (baseName b)⟩)))) := by
  refine ⟨?_, ?_, ?_⟩
  · intro c fs e he
    unfold history
    rw [he]
  · intro c fs
    unfold history
    rcases hgb : getBackupSymlinks c fs with e | backups
    · exact List.sorted_nil
    · haveI : IsTotal HistoricVersion histRel := ⟨fun a b => Nat.le_total _ _⟩
      haveI : IsTrans HistoricVersion histRel :=
        ⟨fun a b c hab hbc => Nat.le_trans hbc hab⟩
      exact List.sorted_insertionSort histRel _
  · intro c fs backups h hok
    unfold history
    rw [hok]
    dsimp only
    constructor
    · intro hmem
      obtain ⟨b, hb, hfb⟩ :=
        List.mem_filterMap.1 ((List.perm_insertionSort histRel _).mem_iff.1 hmem)
      exact ⟨b, hb, (histRec_eq fs b h).1 hfb⟩
    · rintro ⟨b, hb, hdata⟩
      exact (List.perm_insertionSort histRel _).mem_iff.2
        (List.mem_filterMap.2 ⟨b, hb, (histRec_eq fs b h).2 hdata⟩)

/-- C8 witness: a concrete scan failure (missing data directory) with
empty history, a concretely sorted result, and a concrete record
membership for a resolvable, parseable backup link. -/
theorem c8_history_witness :
    history cfgT ([] : FS) = [] ∧
    (history cfgT fsRB).Sorted histRel ∧
    (⟨⟨0, 8, 0, []⟩, parsePreviousTimestamp "previous-20240106-120000"⟩ : HistoricVersion) ∈
      history cfgT fsRB :=
  ⟨c8_history.1 cfgT [] "failed to read data directory" rfl,
    c8_history.2.1 cfgT fsRB,
    (c8_history.2.2 cfgT fsRB [["lib", "app", "previous-20240106-120000"]]
        ⟨⟨0, 8, 0, []⟩, parsePreviousTimestamp "previous-20240106-120000"⟩ rfl).2
      ⟨["lib", "app", "previous-20240106-120000"], by decide,
        ["lib", "app", "versions", "0.8.0"], rfl,
        Or.inl ⟨⟨0, 8, 0, []⟩, by decide, by decide⟩⟩⟩

theorem statFS_file (fs : FS) (n : Nat) (p : Path) (md : Nat) (co : List Nat)
    (h : lookupFS fs p = some (Node.file md co)) :
    statFS fs (n + 1) p = some (Node.file md co) := by
  unfold statFS
  rw [h]

theorem tmpBin_ne_tmpCur (c : Config) (m n : Nat) (hA : c.binaryDir ≠ dataDir c) :
    tmpBinKey c m ≠ tmpCurKey c n := by
  intro h
  exact hA ((childKey_inj _ _ _ _).1 h).1

theorem dataDir_ne_tmpCur (c : Config) (n : Nat) : dataDir c ≠ tmpCurKey c n :=
  dataDir_ne_child c _

theorem rollback_success (c : Config) (env : Env) (clk : Clock) (fs : FS)
    (l : List String) (nm : String) (target tb : Path) (md : Nat) (co : List Nat)
    (hA : c.binaryDir ≠ dataDir c) (hB : c.binaryDir ≠ c.versionsDir)
    (hWF : WFfs fs) (hkill : env.killOk = true)
    (hdir : lookupFS fs (dataDir c) = some Node.dir)
    (hprev : prevNames c fs = l ++ [nm])
    (hlink : lookupFS fs (dataDir c ++ [nm]) = some (Node.symlink target))
    (hfile : lookupFS fs (target ++ [c.binaryName]) = some (Node.file md co))
    (hexec : md &&& 0o111 ≠ 0) (hmagic : co.take 4 = elfMagic) (hlen : 4 ≤ co.length)
    (hbinsym : lookupFS fs (binPath c) = some (Node.symlink tb))
    (htmpc : lookupFS fs (tmpCurKey c clk.nanoCur) = none)
    (htmpb : lookupFS fs (tmpBinKey c clk.nanoBin) = none)
    (h1 : target ++ [c.binaryName] ≠ curKey c)
    (h2 : target ++ [c.binaryName] ≠ tmpCurKey c clk.nanoCur) :
    (rollback c env clk fs).2 = none ∧
    WFfs (rollback c env clk fs).1 ∧
    lookupFS (rollback c env clk fs).1 (dataDir c) = some Node.dir ∧
    lookupFS (rollback c env clk fs).1 (curKey c) = some (Node.symlink target) ∧
    prevNames c (rollback c env clk fs).1 = l ∧
    lookupFS (rollback c env clk fs).1 (binPath c) =
      some (Node.symlink (curKey c ++ [c.binaryName])) ∧
    lookupFS (rollback c env clk fs).1 (dataDir c ++ [nm]) = none ∧
    ∀ q, q ≠ curKey c → q ≠ binPath c → q ≠ dataDir c ++ [nm] →
      lookupFS (rollback c env clk fs).1 q = lookupFS fs q := by
  have hgb := getBackupSymlinks_ok c fs hdir
  rw [hprev] at hgb
  have hgl : ((l ++ [nm]).map (fun n => dataDir c ++ [n])).getLast? =
      some (dataDir c ++ [nm]) := by
    rw [List.map_append]
    exact List.getLast?_concat _
  have hrd : readlinkFS fs (dataDir c ++ [nm]) = .ok target := by
    unfold readlinkFS
    rw [hlink]
  have hstat1 : statFS fs 8 (target ++ [c.binaryName]) = some (Node.file md co) :=
    statFS_file fs 7 _ md co hfile
  have hver : verifyBinary fs (target ++ [c.binaryName]) = none := by
    unfold verifyBinary
    rw [hstat1]
    dsimp only
    rw [if_neg (by omega), if_neg hexec, if_neg (by omega), if_pos hmagic]
  have hsy : symlinkFS fs target (tmpCurKey c clk.nanoCur) =
      .ok (insertFS fs (tmpCurKey c clk.nanoCur) (Node.symlink target)) := by
    unfold symlinkFS
    rw [htmpc]
  have hrn : renameFS (insertFS fs (tmpCurKey c clk.nanoCur) (Node.symlink target))
      (tmpCurKey c clk.nanoCur) (curKey c) =
      .ok (insertFS (eraseFS (insertFS fs (tmpCurKey c clk.nanoCur) (Node.symlink target))
          (tmpCurKey c clk.nanoCur)) (curKey c) (Node.symlink target)) := by
    unfold renameFS
    rw [lookupFS_insert_self]
  have hcur2 : lookupFS (insertFS (eraseFS (insertFS fs (tmpCurKey c clk.nanoCur)
        (Node.symlink target)) (tmpCurKey c clk.nanoCur)) (curKey c) (Node.symlink target))
      (curKey c) = some (Node.symlink target) := lookupFS_insert_self _ _ _
  have hfile2 : lookupFS (insertFS (eraseFS (insertFS fs (tmpCurKey c clk.nanoCur)
        (Node.symlink target)) (tmpCurKey c clk.nanoCur)) (curKey c) (Node.symlink target))
      (target ++ [c.binaryName]) = some (Node.file md co) := by
    rw [lookupFS_insert_ne _ _ _ _ h1, lookupFS_erase_ne _ _ _ h2,
      lookupFS_insert_ne _ _ _ _ h2]
    exact hfile
  have hstat2 : statCurrentBinary c (insertFS (eraseFS (insertFS fs (tmpCurKey c clk.nanoCur)
        (Node.symlink target)) (tmpCurKey c clk.nanoCur)) (curKey c) (Node.symlink target)) =
      some (Node.file md co) := by
    unfold statCurrentBinary
    rw [hcur2]
    dsimp only
    exact statFS_file _ 7 _ md co hfile2
  have hbp2 : lookupFS (insertFS (eraseFS (insertFS fs (tmpCurKey c clk.nanoCur)
        (Node.symlink target)) (tmpCurKey c clk.nanoCur)) (curKey c) (Node.symlink target))
      (binPath c) = some (Node.symlink tb) := by
    rw [lookupFS_insert_ne _ _ _ _ (Ne.symm (curKey_ne_binPath c hA)),
      lookupFS_erase_ne _ _ _ (binPath_ne_tmpCur c clk.nanoCur hA),
      lookupFS_insert_ne _ _ _ _ (binPath_ne_tmpCur c clk.nanoCur hA)]
    exact hbinsym
  have htmpb2 : lookupFS (insertFS (eraseFS (insertFS fs (tmpCurKey c clk.nanoCur)
        (Node.symlink target)) (tmpCurKey c clk.nanoCur)) (curKey c) (Node.symlink target))
      (tmpBinKey c clk.nanoBin) = none := by
    rw [lookupFS_insert_ne _ _ _ _ (Ne.symm (curKey_ne_tmpBin c clk.nanoBin hA)),
      lookupFS_erase_ne _ _ _ (tmpBin_ne_tmpCur c clk.nanoBin clk.nanoCur hA),
      lookupFS_insert_ne _ _ _ _ (tmpBin_ne_tmpCur c clk.nanoBin clk.nanoCur hA)]
    exact htmpb
  have hub : updateBinSymlink c clk (insertFS (eraseFS (insertFS fs (tmpCurKey c clk.nanoCur)
        (Node.symlink target)) (tmpCurKey c clk.nanoCur)) (curKey c) (Node.symlink target)) =
      binSwapTail c clk (insertFS (eraseFS (insertFS fs (tmpCurKey c clk.nanoCur)
        (Node.symlink target)) (tmpCurKey c clk.nanoCur)) (curKey c) (Node.symlink target)) := by
    unfold updateBinSymlink
    rw [hstat2]
    dsimp only
    rw [hbp2]
  have hub2 := hub.trans (binSwap_success c clk _ htmpb2)
  have hres : rollback c env clk fs =
      (eraseFS (insertFS (eraseFS (insertFS (insertFS (eraseFS (insertFS fs
            (tmpCurKey c clk.nanoCur) (Node.symlink target)) (tmpCurKey c clk.nanoCur))
            (curKey c) (Node.symlink target))
          (tmpBinKey c clk.nanoBin) (Node.symlink (curKey c ++ [c.binaryName])))
          (tmpBinKey c clk.nanoBin))
        (binPath c) (Node.symlink (curKey c ++ [c.binaryName]))) (dataDir c ++ [nm]),
       none) := by
    unfold rollback
    rw [hgb]
    dsimp only
    rw [hgl]
    dsimp only
    rw [hrd]
    dsimp only
    rw [hver]
    dsimp only
    rw [hsy]
    dsimp only
    rw [hrn]
    dsimp only
    rw [hub2]
    dsimp only
    rw [hkill, if_pos rfl]
  have hmemPrev : nm ∈ prevNames c fs := by
    rw [hprev]
    simp
  have hnm : isPrevName nm = true :=
    prevNamesRaw_mem_isPrev (dataDir c) fs nm
      ((sortNames_perm (prevNamesRaw (dataDir c) fs)).mem_iff.1 hmemPrev)
  have hnd : (prevNames c fs).Nodup :=
    (sortNames_perm (prevNamesRaw (dataDir c) fs)).nodup_iff.2
      (prevNamesRaw_nodup (dataDir c) fs hWF)
  have hnin : nm ∉ l := by
    rw [hprev] at hnd
    intro hin
    exact (List.nodup_append.1 hnd).2.2 hin (List.mem_singleton_self nm)
  have hcne : curKey c ≠ dataDir c ++ [nm] := by
    intro e
    obtain ⟨-, he2⟩ := (childKey_inj _ _ _ _).1 e
    rw [← he2, isPrevName_current] at hnm
    exact Bool.noConfusion hnm
  have hbne : binPath c ≠ dataDir c ++ [nm] := fun e => hA ((childKey_inj _ _ _ _).1 e).1
  have hWF2 : WFfs (insertFS (eraseFS (insertFS fs (tmpCurKey c clk.nanoCur)
      (Node.symlink target)) (tmpCurKey c clk.nanoCur)) (curKey c) (Node.symlink target)) :=
    WFfs_insert _ _ _ (WFfs_erase _ _ (WFfs_insert _ _ _ hWF))
  have hkCur : isPrevKeyB (dataDir c) (curKey c) = false :=
    isPrevKeyB_child_false (dataDir c) "current" (by decide)
  have hkTmpC : isPrevKeyB (dataDir c) (tmpCurKey c clk.nanoCur) = false :=
    isPrevKeyB_child_false (dataDir c) ("current.tmp." ++ Nat.repr clk.nanoCur)
      (isPrevName_tmpCur _)
  have hkBin : isPrevKeyB (dataDir c) (binPath c) = false :=
    isPrevKeyB_binChild c c.binaryName hA
  have hkTmpB : isPrevKeyB (dataDir c) (tmpBinKey c clk.nanoBin) = false :=
    isPrevKeyB_binChild c (c.binaryName ++ ".tmp." ++ Nat.repr clk.nanoBin) hA
  have hpr3 : prevNamesRaw (dataDir c) (insertFS (eraseFS (insertFS (insertFS (eraseFS
        (insertFS fs (tmpCurKey c clk.nanoCur) (Node.symlink target))
          (tmpCurKey c clk.nanoCur)) (curKey c) (Node.symlink target))
        (tmpBinKey c clk.nanoBin) (Node.symlink (curKey c ++ [c.binaryName])))
        (tmpBinKey c clk.nanoBin))
      (binPath c) (Node.symlink (curKey c ++ [c.binaryName]))) =
      prevNamesRaw (dataDir c) fs := by
    rw [prevNamesRaw_insert_of_not_key _ _ _ _ hkBin,
      prevNamesRaw_erase_of_not_key _ _ _ hkTmpB,
      prevNamesRaw_insert_of_not_key _ _ _ _ hkTmpB,
      prevNamesRaw_insert_of_not_key _ _ _ _ hkCur,
      prevNamesRaw_erase_of_not_key _ _ _ hkTmpC,
      prevNamesRaw_insert_of_not_key _ _ _ _ hkTmpC]
  have hWF3 : WFfs (insertFS (eraseFS (insertFS (insertFS (eraseFS
        (insertFS fs (tmpCurKey c clk.nanoCur) (Node.symlink target))
          (tmpCurKey c clk.nanoCur)) (curKey c) (Node.symlink target))
        (tmpBinKey c clk.nanoBin) (Node.symlink (curKey c ++ [c.binaryName])))
        (tmpBinKey c clk.nanoBin))
      (binPath c) (Node.symlink (curKey c ++ [c.binaryName]))) :=
    WFfs_insert _ _ _ (WFfs_erase _ _ (WFfs_insert _ _ _ hWF2))
  rw [hres]
  dsimp only
  refine ⟨rfl, WFfs_erase _ _ hWF3, ?_, ?_, ?_, ?_, lookupFS_erase_self _ _, ?_⟩
  · rw [lookupFS_erase_ne _ _ _ (dataDir_ne_child c nm),
      lookupFS_insert_ne _ _ _ _ (dataDir_ne_binPath c hB),
      lookupFS_erase_ne _ _ _ (dataDir_ne_tmpBin c clk.nanoBin hB),
      lookupFS_insert_ne _ _ _ _ (dataDir_ne_tmpBin c clk.nanoBin hB),
      lookupFS_insert_ne _ _ _ _ (Ne.symm (curKey_ne_dataDir c)),
      lookupFS_erase_ne _ _ _ (dataDir_ne_tmpCur c clk.nanoCur),
      lookupFS_insert_ne _ _ _ _ (dataDir_ne_tmpCur c clk.nanoCur)]
    exact hdir
  · rw [lookupFS_erase_ne _ _ _ hcne,
      lookupFS_insert_ne _ _ _ _ (curKey_ne_binPath c hA),
      lookupFS_erase_ne _ _ _ (curKey_ne_tmpBin c clk.nanoBin hA),
      lookupFS_insert_ne _ _ _ _ (curKey_ne_tmpBin c clk.nanoBin hA),
      lookupFS_insert_self]
  · rw [prevNames_erase_prev c _ nm hWF3, prevNames_of_raw_eq hpr3, hprev,
      List.erase_append_right _ hnin, List.erase_cons_head, List.append_nil]
  · rw [lookupFS_erase_ne _ _ _ hbne, lookupFS_insert_self]
  · intro q hq1 hq2 hq3
    rw [lookupFS_erase_ne _ _ _ hq3, lookupFS_insert_ne _ _ _ _ hq2]
    by_cases hqb : q = tmpBinKey c clk.nanoBin
    · subst hqb
      rw [lookupFS_erase_self, htmpb]
    · rw [lookupFS_erase_ne _ _ _ hqb, lookupFS_insert_ne _ _ _ _ hqb,
        lookupFS_insert_ne _ _ _ _ hq1]
      by_cases hqc : q = tmpCurKey c clk.nanoCur
      · subst hqc
        rw [lookupFS_erase_self, htmpc]
      · rw [lookupFS_erase_ne _ _ _ hqc, lookupFS_insert_ne _ _ _ _ hqc]

/-- C4: with no `previous-*` link, `Rollback` errors out without
touching the state; and from a state with two backup links over distinct
versions (current at a third), the newest backup is resolved, its binary
verified, `current` atomically swapped to it via the temporary link and
rename, and the consumed link removed — so two consecutive successful
rollbacks leave `current` at the oldest version and both `previous-*`
links consumed. -/
theorem c4_rollback :
    (∀ (c : Config) (env : Env) (clk : Clock) (fs : FS),
      lookupFS fs (dataDir c) = some Node.dir → prevNames c fs = [] →
      rollback c env clk fs = (fs, some "no backup symlinks found, cannot rollback")) ∧
    (∀ (c : Config) (env : Env) (clk : Clock) (fs : FS) (nm1 nm2 : String)
      (t0 t1 t2 tb : Path) (md1 : Nat) (co1 : List Nat) (md2 : Nat) (co2 : List Nat),
      c.binaryDir ≠ dataDir c → c.binaryDir ≠ c.versionsDir →
      WFfs fs → env.killOk = true →
      lookupFS fs (dataDir c) = some Node.dir →
      prevNames c fs = [nm1, nm2] →
      lookupFS fs (curKey c) = some (Node.symlink t0) →
      t0 ≠ t1 → t0 ≠ t2 → t1 ≠ t2 →
      lookupFS fs (dataDir c ++ [nm2]) = some (Node.symlink t2) →
      lookupFS fs (dataDir c ++ [nm1]) = some (Node.symlink t1) →
      lookupFS fs (t2 ++ [c.binaryName]) = some (Node.file md2 co2) →
      md2 &&& 0o111 ≠ 0 → co2.take 4 = elfMagic → 4 ≤ co2.length →
      lookupFS fs (t1 ++ [c.binaryName]) = some (Node.file md1 co1) →
      md1 &&& 0o111 ≠ 0 → co1.take 4 = elfMagic → 4 ≤ co1.length →
      lookupFS fs (binPath c) = some (Node.symlink tb) →
      lookupFS fs (tmpCurKey c clk.nanoCur) = none →
      lookupFS fs (tmpBinKey c clk.nanoBin) = none →
      t2 ++ [c.binaryName] ≠ curKey c → t2 ++ [c.binaryName] ≠ tmpCurKey c clk.nanoCur →
      t1 ++ [c.binaryName] ≠ curKey c → t1 ++ [c.binaryName] ≠ tmpCurKey c clk.nanoCur →
      t1 ++ [c.binaryName] ≠ binPath c → t1 ++ [c.binaryName] ≠ dataDir c ++ [nm2] →
      (rollback c env clk fs).2 = none ∧
      lookupFS (rollback c env clk fs).1 (curKey c) = some (Node.symlink t2) ∧
      prevNames c (rollback c env clk fs).1 = [nm1] ∧
      (rollback c env clk (rollback c env clk fs).1).2 = none ∧
      lookupFS (rollback c env clk (rollback c env clk fs).1).1 (curKey c) =
        some (Node.symlink t1) ∧
      prevNames c (rollback c env clk (rollback c env clk fs).1).1 = [] ∧
      lookupFS (rollback c env clk (rollback c env clk fs).1).1 (dataDir c ++ [nm1]) =
        none ∧
      lookupFS (rollback c env clk (rollback c env clk fs).1).1 (dataDir c ++ [nm2]) =
        none) := by
  constructor
  · intro c env clk fs hdir hempty
    exact rollback_no_backups c env clk fs hdir hempty
  · intro c env clk fs nm1 nm2 t0 t1 t2 tb md1 co1 md2 co2 hA hB hWF hkill hdir hprev
      hcur0 ht01 ht02 ht12 hlink2 hlink1 hfile2 hx2 hmagic2 hlen2 hfile1 hx1 hmagic1 hlen1
      hbinsym htmpc htmpb hc2 hv2 hc1 hv1 hb1 hd1
    obtain ⟨r1err, r1WF, r1dir, r1cur, r1prev, r1bin, r1latest, r1pres⟩ :=
      rollback_success c env clk fs [nm1] nm2 t2 tb md2 co2 hA hB hWF hkill hdir hprev
        hlink2 hfile2 hx2 hmagic2 hlen2 hbinsym htmpc htmpb hc2 hv2
    have hm1 : nm1 ∈ prevNames c fs := by
      rw [hprev]
      simp
    have hm2 : nm2 ∈ prevNames c fs := by
      rw [hprev]
      simp
    have hnm1 : isPrevName nm1 = true :=
      prevNamesRaw_mem_isPrev (dataDir c) fs nm1
        ((sortNames_perm (prevNamesRaw (dataDir c) fs)).mem_iff.1 hm1)
    have hnm2 : isPrevName nm2 = true :=
      prevNamesRaw_mem_isPrev (dataDir c) fs nm2
        ((sortNames_perm (prevNamesRaw (dataDir c) fs)).mem_iff.1 hm2)
    have hnd : (prevNames c fs).Nodup :=
      (sortNames_perm (prevNamesRaw (dataDir c) fs)).nodup_iff.2
        (prevNamesRaw_nodup (dataDir c) fs hWF)
    have hn12 : nm1 ≠ nm2 := by
      rw [hprev] at hnd
      intro e
      exact (List.nodup_cons.1 hnd).1 (by rw [e]; exact List.mem_singleton_self _)
    have hprevne_cur : ∀ nmx : String, isPrevName nmx = true →
        dataDir c ++ [nmx] ≠ curKey c := by
      intro nmx hnx e
      obtain ⟨-, he2⟩ := (childKey_inj _ _ _ _).1 e
      rw [he2, isPrevName_current] at hnx
      exact Bool.noConfusion hnx
    have hprevne_bin : ∀ nmx : String, dataDir c ++ [nmx] ≠ binPath c :=
      fun nmx e => hA (((childKey_inj _ _ _ _).1 e).1).symm
    have hlink1ne2 : dataDir c ++ [nm1] ≠ dataDir c ++ [nm2] :=
      fun e => hn12 ((childKey_inj _ _ _ _).1 e).2
    have htc_ne : tmpCurKey c clk.nanoCur ≠ dataDir c ++ [nm2] := by
      intro e
      obtain ⟨-, he2⟩ := (childKey_inj _ _ _ _).1 e
      rw [← he2, isPrevName_tmpCur] at hnm2
      exact Bool.noConfusion hnm2
    have htb_ne : tmpBinKey c clk.nanoBin ≠ dataDir c ++ [nm2] :=
      fun e => hA ((childKey_inj _ _ _ _).1 e).1
    have hlink1l : lookupFS (rollback c env clk fs).1 (dataDir c ++ [nm1]) =
        some (Node.symlink t1) :=
      (r1pres _ (hprevne_cur nm1 hnm1) (hprevne_bin nm1) hlink1ne2).trans hlink1
    have hfile1l : lookupFS (rollback c env clk fs).1 (t1 ++ [c.binaryName]) =
        some (Node.file md1 co1) :=
      (r1pres _ hc1 hb1 hd1).trans hfile1
    have htmpcl : lookupFS (rollback c env clk fs).1 (tmpCurKey c clk.nanoCur) = none :=
      (r1pres _ (Ne.symm (curKey_ne_tmpCur c clk.nanoCur))
        (Ne.symm (binPath_ne_tmpCur c clk.nanoCur hA)) htc_ne).trans htmpc
    have htmpbl : lookupFS (rollback c env clk fs).1 (tmpBinKey c clk.nanoBin) = none :=
      (r1pres _ (Ne.symm (curKey_ne_tmpBin c clk.nanoBin hA))
        (tmpBin_ne_binPath c clk.nanoBin) htb_ne).trans htmpb
    obtain ⟨r2err, r2WF, r2dir, r2cur, r2prev, r2bin, r2latest, r2pres⟩ :=
      rollback_success c env clk (rollback c env clk fs).1 [] nm1 t1
        (curKey c ++ [c.binaryName]) md1 co1 hA hB r1WF hkill r1dir r1prev
        hlink1l hfile1l hx1 hmagic1 hlen1 r1bin htmpcl htmpbl hc1 hv1
    refine ⟨r1err, r1cur, r1prev, r2err, r2cur, r2prev, r2latest, ?_⟩
    exact (r2pres _ (hprevne_cur nm2 hnm2) (hprevne_bin nm2)
      (Ne.symm hlink1ne2)).trans r1latest

/-- C4 witness: from `fsC4` (current at 3.0.0, backups at 2.0.0 and
1.0.0), two rollbacks walk back to 1.0.0 and remove both links; a state
with no backups is refused. -/
theorem c4_rollback_witness :
    rollback cfgT envOk clkT1 [(["lib", "app"], Node.dir)] =
      ([(["lib", "app"], Node.dir)], some "no backup symlinks found, cannot rollback") ∧
    ((rollback cfgT envOk clkT1 fsC4).2 = none ∧
      lookupFS (rollback cfgT envOk clkT1 fsC4).1 (curKey cfgT) =
        some (Node.symlink ["lib", "app", "versions", "2.0.0"]) ∧
      prevNames cfgT (rollback cfgT envOk clkT1 fsC4).1 = ["previous-20240101-000001"] ∧
      (rollback cfgT envOk clkT1 (rollback cfgT envOk clkT1 fsC4).1).2 = none ∧
      lookupFS (rollback cfgT envOk clkT1 (rollback cfgT envOk clkT1 fsC4).1).1
          (curKey cfgT) = some (Node.symlink ["lib", "app", "versions", "1.0.0"]) ∧
      prevNames cfgT (rollback cfgT envOk clkT1 (rollback cfgT envOk clkT1 fsC4).1).1 = [] ∧
      lookupFS (rollback cfgT envOk clkT1 (rollback cfgT envOk clkT1 fsC4).1).1
          (dataDir cfgT ++ ["previous-20240101-000001"]) = none ∧
      lookupFS (rollback cfgT envOk clkT1 (rollback cfgT envOk clkT1 fsC4).1).1
          (dataDir cfgT ++ ["previous-20240102-000001"]) = none) :=
  ⟨c4_rollback.1 cfgT envOk clkT1 [(["lib", "app"], Node.dir)] (by decide) (by decide),
    c4_rollback.2 cfgT envOk clkT1 fsC4 "previous-20240101-000001" "previous-20240102-000001"
      ["lib", "app", "versions", "3.0.0"] ["lib", "app", "versions", "1.0.0"]
      ["lib", "app", "versions", "2.0.0"] ["lib", "app", "current", "app"]
      0o755 elfBytes 0o755 elfBytes
      (by decide) (by decide) (by decide) (by decide) (by decide) (by decide) (by decide)
      (by decide) (by decide) (by decide) (by decide) (by decide) (by decide) (by decide)
      (by decide) (by decide) (by decide) (by decide) (by decide) (by decide) (by decide)
      (by decide) (by decide) (by decide) (by decide) (by decide) (by decide) (by decide)
      (by decide)⟩

end Knock
